import Mathlib

/-!
Verification of the Ocean kernel core against its specification.

Each namespace below is a shallow embedding of one C source file of the
kernel (src/kernel/...).  Machine integers (u32/u64) are modelled as Nat,
with explicit reductions modulo 2^32 / 2^64 at the points where the C code
can overflow or wrap.  Intrusive doubly-linked lists are modelled as
functional lists; a per-thread boolean models the "is this node linked"
state that `list_empty(&node)` observes after `list_del_init`.
-/

set_option maxRecDepth 8000

namespace Ocean

/-- PAGE_SHIFT from defs.h. -/
def PAGE_SHIFT : Nat := 12

/-- PAGE_SIZE from defs.h: 4 KiB. -/
def PAGE_SIZE : Nat := 2 ^ PAGE_SHIFT

namespace Slab

/-- KMALLOC_MAX_SIZE from slab.c: largest size served by the slab caches. -/
def KMALLOC_MAX_SIZE : Nat := 2048

/-- Object size of kmalloc cache index i.  kmalloc_init creates the nine
general caches with sizes 8, 16, 32, ..., 2048 (size starts at
KMALLOC_MIN_SIZE = 8 and doubles each iteration). -/
def cacheObjSize (i : Nat) : Nat := 8 * 2 ^ i

/-- kmalloc_cache_for_size from slab.c: the if-chain selecting the cache
index for a size; none for sizes above 2048 (page allocator instead). -/
def kmalloc_cache_for_size (size : Nat) : Option Nat :=
  if size ≤ 8 then some 0
  else if size ≤ 16 then some 1
  else if size ≤ 32 then some 2
  else if size ≤ 64 then some 3
  else if size ≤ 128 then some 4
  else if size ≤ 256 then some 5
  else if size ≤ 512 then some 6
  else if size ≤ 1024 then some 7
  else if size ≤ 2048 then some 8
  else none

/-- The while loop in kmalloc: `while ((1U << order) < pages) order++;`.
Modelled with explicit fuel; the C loop has no bound, but for any page
count reachable without undefined behaviour of the 32-bit shift
(pages ≤ 2^31) the loop stops with order ≤ 31, so a fuel of 64 is never
exhausted on the domain we reason about. -/
def orderLoop : Nat → Nat → Nat → Nat
  | 0, order, _ => order
  | fuel + 1, order, pages =>
    if 2 ^ order < pages then orderLoop fuel (order + 1) pages else order

/-- Order computation of kmalloc for sizes above KMALLOC_MAX_SIZE:
pages = ceil(size / PAGE_SIZE), then the while loop above starting
at order 0. -/
def kmallocLargeOrder (size : Nat) : Nat :=
  orderLoop 64 0 ((size + PAGE_SIZE - 1) / PAGE_SIZE)

/-- Where a kmalloc request is routed: the NULL return, a slab cache
(by index), or whole pages from the buddy allocator (by order). -/
inductive KmallocRoute where
  | null : KmallocRoute
  | slab : Nat → KmallocRoute
  | pages : Nat → KmallocRoute
deriving DecidableEq, Repr

/-- kmalloc from slab.c: size 0 returns NULL; sizes above KMALLOC_MAX_SIZE
go to get_free_pages with the computed order; otherwise the matching
slab cache is used (the cache lookup cannot fail on this branch). -/
def kmalloc (size : Nat) : KmallocRoute :=
  if size = 0 then KmallocRoute.null
  else if size > KMALLOC_MAX_SIZE then KmallocRoute.pages (kmallocLargeOrder size)
  else
    match kmalloc_cache_for_size size with
    | some i => KmallocRoute.slab i
    | none => KmallocRoute.null

theorem orderLoop_spec (fuel : Nat) : ∀ (order pages : Nat),
    pages ≤ 2 ^ (order + fuel) →
    pages ≤ 2 ^ orderLoop fuel order pages ∧
    (∀ j, order ≤ j → j < orderLoop fuel order pages → 2 ^ j < pages) := by
  induction fuel with
  | zero =>
    intro order pages h
    refine ⟨by simpa using h, ?_⟩
    intro j h1 h2
    simp only [orderLoop] at h2
    omega
  | succ n ih =>
    intro order pages h
    simp only [orderLoop]
    by_cases hc : 2 ^ order < pages
    · simp only [if_pos hc]
      have h2 : pages ≤ 2 ^ (order + 1 + n) := by
        have : order + 1 + n = order + (n + 1) := by omega
        rw [this]; exact h
      obtain ⟨ha, hb⟩ := ih (order + 1) pages h2
      refine ⟨ha, ?_⟩
      intro j hj1 hj2
      rcases Nat.eq_or_lt_of_le hj1 with hEq | hLt
      · rw [← hEq]; exact hc
      · exact hb j hLt hj2
    · simp only [if_neg hc]
      refine ⟨by omega, ?_⟩
      intro j h1 h2
      omega

/-- C7: kmalloc(0) returns NULL; for 1 ≤ s ≤ 2048 the request goes to the
size-class cache whose object size is the smallest power of two that is at
least max(s, 8), among the nine classes 8..2048; for s > 2048 whole pages
are requested from the buddy allocator with the smallest power-of-two page
count covering s.  The large-size branch is stated for s ≤ 2^43, the range
on which the C expression `1U << order` is free of undefined behaviour. -/
theorem C7_kmalloc_size_classes :
    kmalloc 0 = KmallocRoute.null ∧
    (∀ s, 1 ≤ s → s ≤ 2048 →
      ∃ i, kmalloc s = KmallocRoute.slab i ∧ i < 9 ∧
        cacheObjSize i = 2 ^ (i + 3) ∧
        max s 8 ≤ cacheObjSize i ∧
        (∀ j, j < i → cacheObjSize j < max s 8)) ∧
    (∀ s, 2048 < s → s ≤ 2 ^ 43 →
      ∃ o, kmalloc s = KmallocRoute.pages o ∧
        s ≤ 2 ^ o * PAGE_SIZE ∧
        (∀ j, s ≤ 2 ^ j * PAGE_SIZE → o ≤ j)) := by
  refine ⟨rfl, ?_, ?_⟩
  · intro s h1 h2
    have hs0 : s ≠ 0 := by omega
    have hsmax : ¬ s > KMALLOC_MAX_SIZE := by
      simp only [KMALLOC_MAX_SIZE]; omega
    simp only [kmalloc, if_neg hs0, if_neg hsmax, kmalloc_cache_for_size]
    by_cases c0 : s ≤ 8
    · exact ⟨0, by simp [c0], by norm_num, by norm_num [cacheObjSize],
        by simp [cacheObjSize]; omega, by omega⟩
    by_cases c1 : s ≤ 16
    · refine ⟨1, by simp [c0, c1], by norm_num, by norm_num [cacheObjSize],
        ?_, ?_⟩
      · simp [cacheObjSize]; omega
      · intro j hj
        interval_cases j <;> simp [cacheObjSize] <;> omega
    by_cases c2 : s ≤ 32
    · refine ⟨2, by simp [c0, c1, c2], by norm_num, by norm_num [cacheObjSize],
        ?_, ?_⟩
      · simp [cacheObjSize]; omega
      · intro j hj
        interval_cases j <;> simp [cacheObjSize] <;> omega
    by_cases c3 : s ≤ 64
    · refine ⟨3, by simp [c0, c1, c2, c3], by norm_num,
        by norm_num [cacheObjSize], ?_, ?_⟩
      · simp [cacheObjSize]; omega
      · intro j hj
        interval_cases j <;> simp [cacheObjSize] <;> omega
    by_cases c4 : s ≤ 128
    · refine ⟨4, by simp [c0, c1, c2, c3, c4], by norm_num,
        by norm_num [cacheObjSize], ?_, ?_⟩
      · simp [cacheObjSize]; omega
      · intro j hj
        interval_cases j <;> simp [cacheObjSize] <;> omega
    by_cases c5 : s ≤ 256
    · refine ⟨5, by simp [c0, c1, c2, c3, c4, c5], by norm_num,
        by norm_num [cacheObjSize], ?_, ?_⟩
      · simp [cacheObjSize]; omega
      · intro j hj
        interval_cases j <;> simp [cacheObjSize] <;> omega
    by_cases c6 : s ≤ 512
    · refine ⟨6, by simp [c0, c1, c2, c3, c4, c5, c6], by norm_num,
        by norm_num [cacheObjSize], ?_, ?_⟩
      · simp [cacheObjSize]; omega
      · intro j hj
        interval_cases j <;> simp [cacheObjSize] <;> omega
    by_cases c7 : s ≤ 1024
    · refine ⟨7, by simp [c0, c1, c2, c3, c4, c5, c6, c7], by norm_num,
        by norm_num [cacheObjSize], ?_, ?_⟩
      · simp [cacheObjSize]; omega
      · intro j hj
        interval_cases j <;> simp [cacheObjSize] <;> omega
    · have c8 : s ≤ 2048 := h2
      refine ⟨8, by simp [c0, c1, c2, c3, c4, c5, c6, c7, c8], by norm_num,
        by norm_num [cacheObjSize], ?_, ?_⟩
      · simp [cacheObjSize]; omega
      · intro j hj
        interval_cases j <;> simp [cacheObjSize] <;> omega
  · intro s hs hs43
    have hs0 : s ≠ 0 := by omega
    have hsmax : s > KMALLOC_MAX_SIZE := by
      simp only [KMALLOC_MAX_SIZE]; omega
    simp only [kmalloc, if_neg hs0, if_pos hsmax]
    refine ⟨kmallocLargeOrder s, rfl, ?_, ?_⟩
    · have hb : (s + PAGE_SIZE - 1) / PAGE_SIZE ≤ 2 ^ (0 + 64) := by
        simp only [PAGE_SIZE, PAGE_SHIFT]
        norm_num
        omega
      obtain ⟨h1, _⟩ := orderLoop_spec 64 0 ((s + PAGE_SIZE - 1) / PAGE_SIZE) hb
      simp only [PAGE_SIZE, PAGE_SHIFT] at h1 ⊢
      norm_num at h1 ⊢
      unfold kmallocLargeOrder
      simp only [PAGE_SIZE, PAGE_SHIFT]
      norm_num
      omega
    · intro j hj
      have hb : (s + PAGE_SIZE - 1) / PAGE_SIZE ≤ 2 ^ (0 + 64) := by
        simp only [PAGE_SIZE, PAGE_SHIFT]
        norm_num
        omega
      obtain ⟨_, h2⟩ := orderLoop_spec 64 0 ((s + PAGE_SIZE - 1) / PAGE_SIZE) hb
      by_contra hlt
      push_neg at hlt
      have h3 := h2 j (Nat.zero_le j) (by
        simpa [kmallocLargeOrder] using hlt)
      simp only [PAGE_SIZE, PAGE_SHIFT] at h3 hj
      norm_num at h3 hj
      omega

/-- Witness for C7 at concrete sizes: s = 100 goes to the 128-byte class,
s = 3 · 4096 + 1 goes to order 2 (four pages). -/
theorem C7_kmalloc_size_classes_witness :
    (∃ i, kmalloc 100 = KmallocRoute.slab i ∧ i < 9 ∧
      cacheObjSize i = 2 ^ (i + 3) ∧
      max 100 8 ≤ cacheObjSize i ∧
      (∀ j, j < i → cacheObjSize j < max 100 8)) ∧
    (∃ o, kmalloc 12289 = KmallocRoute.pages o ∧
      12289 ≤ 2 ^ o * PAGE_SIZE ∧
      (∀ j, 12289 ≤ 2 ^ j * PAGE_SIZE → o ≤ j)) :=
  ⟨C7_kmalloc_size_classes.2.1 100 (by norm_num) (by norm_num),
   C7_kmalloc_size_classes.2.2 12289 (by norm_num) (by norm_num)⟩

end Slab

/-- VMA access flags from vmm.h. -/
def VMA_READ : Nat := 1
def VMA_WRITE : Nat := 2
def VMA_EXEC : Nat := 4
def VMA_SHARED : Nat := 8
def VMA_STACK : Nat := 16

/-- USER_SPACE_END from vmm.h. -/
def USER_SPACE_END : Nat := 0x00007FFFFFFFFFFF

/-- KERNEL_SPACE_START from vmm.h. -/
def KERNEL_SPACE_START : Nat := 0xFFFF800000000000

/-- A vm_area record (vmm.h): half-open range [start, end_) with VMA_*
flags and the PTE protection bits used when mapping pages of the area. -/
structure VMArea where
  start : Nat
  end_ : Nat
  flags : Nat
  page_prot : Nat
deriving DecidableEq, Repr

/-- vmm_find_vma from vmm.c: walk the sorted VMA list; return the first
area containing addr, stopping early once the list has passed addr. -/
def vmm_find_vma : List VMArea → Nat → Option VMArea
  | [], _ => none
  | vma :: rest, addr =>
    if vma.start ≤ addr ∧ addr < vma.end_ then some vma
    else if addr < vma.start then none
    else vmm_find_vma rest addr

namespace Uaccess

/-- EFAULT from defs.h (returned negated). -/
def EFAULT : Int := 14

/-- EINVAL from defs.h (returned negated). -/
def EINVAL : Int := 22

/-- The VMA-walk loop of validate_user_range: starting at cursor, check
that contiguous VMAs with the required flags cover [cursor, endAddr). -/
def validate_loop (vmas : List VMArea) (required endAddr : Nat) (cursor : Nat) : Int :=
  if h : cursor < endAddr then
    match vmm_find_vma vmas cursor with
    | none => -EFAULT
    | some vma =>
      if cursor < vma.start then -EFAULT
      else if required &&& VMA_READ ≠ 0 ∧ vma.flags &&& VMA_READ = 0 then -EFAULT
      else if required &&& VMA_WRITE ≠ 0 ∧ vma.flags &&& VMA_WRITE = 0 then -EFAULT
      else if required &&& VMA_EXEC ≠ 0 ∧ vma.flags &&& VMA_EXEC = 0 then -EFAULT
      else if hle : vma.end_ ≤ cursor then -EFAULT
      else if endAddr ≤ vma.end_ then 0
      else validate_loop vmas required endAddr vma.end_
  else 0
termination_by endAddr - cursor
decreasing_by omega

/-- validate_user_range from uaccess.c.  The current process and its
address space are passed as the environment: none models a process with
no mm (or no current process), some vmas its VMA list. -/
def validate_user_range (mm : Option (List VMArea)) (ptr len required : Nat) : Int :=
  if ptr = 0 then -EFAULT
  else if len = 0 then 0
  else if ptr > USER_SPACE_END then -EFAULT
  else if len - 1 > USER_SPACE_END - ptr then -EFAULT
  else
    match mm with
    | none => -EFAULT
    | some vmas => validate_loop vmas required (ptr + len) ptr

/-- copy_from_user from uaccess.c.  Only the returned status is modelled;
the memcpy transfer itself has no observable effect on the validation
result being claimed. -/
def copy_from_user (mm : Option (List VMArea)) (dst src len : Nat) : Int :=
  if dst = 0 then -EINVAL
  else if len = 0 then 0
  else
    let ret := validate_user_range mm src len VMA_READ
    if ret < 0 then ret else 0

/-- copy_to_user from uaccess.c, symmetric to copy_from_user: the null
check is on the kernel-side source, validation on the user destination
with VMA_WRITE. -/
def copy_to_user (mm : Option (List VMArea)) (dst src len : Nat) : Int :=
  if src = 0 then -EINVAL
  else if len = 0 then 0
  else
    let ret := validate_user_range mm dst len VMA_WRITE
    if ret < 0 then ret else 0

/-- C10: zero-length copies succeed for every user pointer without any
validation (any environment, pointers outside user space, null user
pointers); validate_user_range accepts every non-null pointer when len
is 0; only a null kernel-side destination (copy_from_user) or source
(copy_to_user) makes the zero-length call fail, with -EINVAL. -/
theorem C10_zero_length_uaccess :
    (∀ mm dst src, dst ≠ 0 → copy_from_user mm dst src 0 = 0) ∧
    (∀ mm dst src, src ≠ 0 → copy_to_user mm dst src 0 = 0) ∧
    (∀ mm ptr required, ptr ≠ 0 → validate_user_range mm ptr 0 required = 0) ∧
    (∀ mm src, copy_from_user mm 0 src 0 = -EINVAL) ∧
    (∀ mm dst, copy_to_user mm dst 0 0 = -EINVAL) := by
  refine ⟨?_, ?_, ?_, ?_, ?_⟩
  · intro mm dst src h
    simp [copy_from_user, h]
  · intro mm dst src h
    simp [copy_to_user, h]
  · intro mm ptr required h
    simp [validate_user_range, h]
  · intro mm src
    simp [copy_from_user]
  · intro mm dst
    simp [copy_to_user]

/-- Witness for C10: a pointer far outside user space, with no address
space at all, still passes the zero-length calls. -/
theorem C10_zero_length_uaccess_witness :
    copy_from_user none 1 0xFFFFFFFFFFFFFFFF 0 = 0 ∧
    copy_to_user none 0xFFFF900000000000 77 0 = 0 ∧
    validate_user_range (some []) 0xFFFF800000000000 0 VMA_READ = 0 :=
  ⟨C10_zero_length_uaccess.1 none 1 0xFFFFFFFFFFFFFFFF (by norm_num),
   C10_zero_length_uaccess.2.1 none 0xFFFF900000000000 77 (by norm_num),
   C10_zero_length_uaccess.2.2.1 (some []) 0xFFFF800000000000 VMA_READ
     (by norm_num)⟩

end Uaccess

namespace Cap

/-- CAP_TYPE_NONE from ipc.h: an empty slot. -/
def CAP_TYPE_NONE : Nat := 0

/-- CAP_TYPE_ENDPOINT from ipc.h. -/
def CAP_TYPE_ENDPOINT : Nat := 1

/-- CAP_RIGHT_GRANT from ipc.h (1 << 2). -/
def CAP_RIGHT_GRANT : Nat := 4

/-- CAP_RIGHT_REVOKE from ipc.h (1 << 3). -/
def CAP_RIGHT_REVOKE : Nat := 8

/-- The u32 value (u32)-1 used by cap_copy and cap_mint as the "pick any
free slot" destination marker. -/
def U32_MAX : Nat := 0xFFFFFFFF

/-- A capability slot (ipc.h struct capability). -/
structure Capability where
  type : Nat
  rights : Nat
  object : Nat
  badge : Nat
  generation : Nat
  slot : Nat
deriving DecidableEq, Repr

/-- The all-zero capability, the content of a cleared slot. -/
def emptyCap : Capability :=
  { type := 0, rights := 0, object := 0, badge := 0, generation := 0, slot := 0 }

/-- A capability space (ipc.h struct cspace): a slot array, a free-slot
bitmap (the C u64 words are modelled bit-per-slot), a used count and the
generation counter used for revocation. -/
structure CSpace where
  size : Nat
  slots : List Capability
  bitmap : List Bool
  used : Nat
  generation : Nat
deriving DecidableEq, Repr

/-- cspace_find_free_slot from capability.c: lowest index whose bitmap
bit is clear. -/
def cspace_find_free_slot (cs : CSpace) : Option Nat :=
  (List.range cs.size).find? fun i => ! cs.bitmap.getD i false

/-- cspace_mark_used from capability.c. -/
def cspace_mark_used (cs : CSpace) (slot : Nat) : CSpace :=
  { cs with bitmap := cs.bitmap.set slot true, used := cs.used + 1 }

/-- cspace_mark_free from capability.c. -/
def cspace_mark_free (cs : CSpace) (slot : Nat) : CSpace :=
  { cs with bitmap := cs.bitmap.set slot false, used := cs.used - 1 }

/-- cap_lookup from capability.c: returns the slot content when the slot
index is in range and the slot is occupied.  No generation check is
performed. -/
def cap_lookup (cs : CSpace) (slot : Nat) : Option Capability :=
  if slot ≥ cs.size then none
  else if (cs.slots.getD slot emptyCap).type ≠ CAP_TYPE_NONE then
    some (cs.slots.getD slot emptyCap)
  else none

/-- cap_revoke from capability.c: requires an occupied slot bearing
CAP_RIGHT_REVOKE; on success only the space's u32 generation counter is
bumped. -/
def cap_revoke (cs : CSpace) (slot : Nat) : Int × CSpace :=
  if slot ≥ cs.size then (-1, cs)
  else if (cs.slots.getD slot emptyCap).type = CAP_TYPE_NONE then (-1, cs)
  else if (cs.slots.getD slot emptyCap).rights &&& CAP_RIGHT_REVOKE = 0 then (-1, cs)
  else (0, { cs with generation := (cs.generation + 1) % 2 ^ 32 })

/-- Destination-slot selection shared by cap_copy and cap_mint: an
explicit destination must be in range and empty; (u32)-1 picks a free
slot from the bitmap. -/
def chooseDst (dst : CSpace) (dst_slot : Nat) : Option Nat :=
  if dst_slot = U32_MAX then cspace_find_free_slot dst
  else if dst_slot ≥ dst.size then none
  else if (dst.slots.getD dst_slot emptyCap).type ≠ CAP_TYPE_NONE then none
  else some dst_slot

/-- cap_copy from capability.c, for two distinct capability spaces (the
lock-ordering and aliasing of the same-space case do not change the
sequential semantics modelled here).  Returns the C return value and the
two spaces after the call. -/
def cap_copy (dst : CSpace) (dst_slot : Nat) (src : CSpace) (src_slot : Nat) :
    Int × CSpace × CSpace :=
  if src_slot ≥ src.size then (-1, dst, src)
  else if (src.slots.getD src_slot emptyCap).type = CAP_TYPE_NONE then (-1, dst, src)
  else if (src.slots.getD src_slot emptyCap).rights &&& CAP_RIGHT_GRANT = 0 then
    (-1, dst, src)
  else
    match chooseDst dst dst_slot with
    | none => (-1, dst, src)
    | some actual =>
      let cap := src.slots.getD src_slot emptyCap
      let cap2 := { cap with slot := actual, generation := dst.generation }
      let dst2 := cspace_mark_used { dst with slots := dst.slots.set actual cap2 } actual
      ((actual : Int), dst2, src)

/-- cap_mint from capability.c: like cap_copy but the new rights are the
intersection of the source rights with the requested mask, and the badge
is replaced. -/
def cap_mint (dst : CSpace) (dst_slot : Nat) (src : CSpace) (src_slot : Nat)
    (new_rights badge : Nat) : Int × CSpace × CSpace :=
  if src_slot ≥ src.size then (-1, dst, src)
  else if (src.slots.getD src_slot emptyCap).type = CAP_TYPE_NONE then (-1, dst, src)
  else if (src.slots.getD src_slot emptyCap).rights &&& CAP_RIGHT_GRANT = 0 then
    (-1, dst, src)
  else
    let allowed := (src.slots.getD src_slot emptyCap).rights &&& new_rights
    match chooseDst dst dst_slot with
    | none => (-1, dst, src)
    | some actual =>
      let cap := src.slots.getD src_slot emptyCap
      let cap2 := { cap with slot := actual, rights := allowed, badge := badge,
                             generation := dst.generation }
      let dst2 := cspace_mark_used { dst with slots := dst.slots.set actual cap2 } actual
      ((actual : Int), dst2, src)

/-- C8: cap_copy and cap_mint with an explicit destination slot that is
out of range or occupied, or a source slot that is empty or lacks
CAP_RIGHT_GRANT, return -1 and leave both capability spaces completely
unchanged (slots, bitmap and used count included). -/
theorem C8_cap_copy_mint_error_atomicity
    (dst : CSpace) (dst_slot : Nat) (src : CSpace) (src_slot : Nat)
    (new_rights badge : Nat)
    (hexp : dst_slot ≠ U32_MAX)
    (hbad : dst_slot ≥ dst.size ∨
            (dst.slots.getD dst_slot emptyCap).type ≠ CAP_TYPE_NONE ∨
            (src.slots.getD src_slot emptyCap).type = CAP_TYPE_NONE ∨
            (src.slots.getD src_slot emptyCap).rights &&& CAP_RIGHT_GRANT = 0) :
    cap_copy dst dst_slot src src_slot = (-1, dst, src) ∧
    cap_mint dst dst_slot src src_slot new_rights badge = (-1, dst, src) := by
  have hchoose : (dst_slot ≥ dst.size ∨
      (dst.slots.getD dst_slot emptyCap).type ≠ CAP_TYPE_NONE) →
      chooseDst dst dst_slot = none := by
    intro h
    unfold chooseDst
    rw [if_neg hexp]
    rcases h with h | h
    · rw [if_pos h]
    · by_cases hsz : dst_slot ≥ dst.size
      · rw [if_pos hsz]
      · rw [if_neg hsz, if_pos h]
  constructor
  · unfold cap_copy
    by_cases h1 : src_slot ≥ src.size
    · rw [if_pos h1]
    rw [if_neg h1]
    by_cases h2 : (src.slots.getD src_slot emptyCap).type = CAP_TYPE_NONE
    · rw [if_pos h2]
    rw [if_neg h2]
    by_cases h3 : (src.slots.getD src_slot emptyCap).rights &&& CAP_RIGHT_GRANT = 0
    · rw [if_pos h3]
    rw [if_neg h3]
    have hd : chooseDst dst dst_slot = none := by
      apply hchoose
      rcases hbad with h | h | h | h
      · exact Or.inl h
      · exact Or.inr h
      · exact absurd h h2
      · exact absurd h h3
    rw [hd]
  · unfold cap_mint
    by_cases h1 : src_slot ≥ src.size
    · rw [if_pos h1]
    rw [if_neg h1]
    by_cases h2 : (src.slots.getD src_slot emptyCap).type = CAP_TYPE_NONE
    · rw [if_pos h2]
    rw [if_neg h2]
    by_cases h3 : (src.slots.getD src_slot emptyCap).rights &&& CAP_RIGHT_GRANT = 0
    · rw [if_pos h3]
    rw [if_neg h3]
    have hd : chooseDst dst dst_slot = none := by
      apply hchoose
      rcases hbad with h | h | h | h
      · exact Or.inl h
      · exact Or.inr h
      · exact absurd h h2
      · exact absurd h h3
    simp only [hd]

/-- Witness for C8: copying out of an empty source slot into an explicit
destination leaves both spaces untouched and returns -1. -/
theorem C8_cap_copy_mint_error_atomicity_witness :
    cap_copy
      { size := 2, slots := [emptyCap, emptyCap], bitmap := [false, false],
        used := 0, generation := 1 } 0
      { size := 1, slots := [emptyCap], bitmap := [false], used := 0,
        generation := 1 } 0 =
      (-1,
       { size := 2, slots := [emptyCap, emptyCap], bitmap := [false, false],
         used := 0, generation := 1 },
       { size := 1, slots := [emptyCap], bitmap := [false], used := 0,
         generation := 1 }) :=
  (C8_cap_copy_mint_error_atomicity
    { size := 2, slots := [emptyCap, emptyCap], bitmap := [false, false],
      used := 0, generation := 1 } 0
    { size := 1, slots := [emptyCap], bitmap := [false], used := 0,
      generation := 1 } 0 0 0
    (by decide) (Or.inr (Or.inr (Or.inl (by decide))))).1

/-- C4, code evaluation at the failing input: a capability space whose
slot 0 holds an endpoint capability with CAP_RIGHT_REVOKE, recorded
generation 1.  cap_revoke succeeds and bumps the space generation to 2,
yet the very next cap_lookup still returns the stale capability whose
recorded generation 1 is older than the space's current generation; the
lookup path has no generation comparison at all.  Also shown: without
CAP_RIGHT_REVOKE, cap_revoke fails and changes nothing. -/
theorem C4_cap_revoke_stale_lookup_eval :
    (cap_revoke
        { size := 1,
          slots := [{ type := CAP_TYPE_ENDPOINT, rights := CAP_RIGHT_REVOKE,
                      object := 5, badge := 0, generation := 1, slot := 0 }],
          bitmap := [true], used := 1, generation := 1 } 0).1 = 0 ∧
    (cap_revoke
        { size := 1,
          slots := [{ type := CAP_TYPE_ENDPOINT, rights := CAP_RIGHT_REVOKE,
                      object := 5, badge := 0, generation := 1, slot := 0 }],
          bitmap := [true], used := 1, generation := 1 } 0).2.generation = 2 ∧
    (∃ c, cap_lookup
        (cap_revoke
          { size := 1,
            slots := [{ type := CAP_TYPE_ENDPOINT, rights := CAP_RIGHT_REVOKE,
                        object := 5, badge := 0, generation := 1, slot := 0 }],
            bitmap := [true], used := 1, generation := 1 } 0).2 0 = some c ∧
      c.generation = 1) ∧
    cap_revoke
        { size := 1,
          slots := [{ type := CAP_TYPE_ENDPOINT, rights := CAP_RIGHT_GRANT,
                      object := 5, badge := 0, generation := 1, slot := 0 }],
          bitmap := [true], used := 1, generation := 1 } 0 =
      (-1,
       { size := 1,
         slots := [{ type := CAP_TYPE_ENDPOINT, rights := CAP_RIGHT_GRANT,
                     object := 5, badge := 0, generation := 1, slot := 0 }],
         bitmap := [true], used := 1, generation := 1 }) := by
  refine ⟨rfl, rfl, ⟨_, rfl, rfl⟩, rfl⟩

end Cap

namespace Ipc

/-- IPC_FAST_REGS from ipc.h. -/
def IPC_FAST_REGS : Nat := 8

/-- IPC result codes from ipc.h. -/
def IPC_OK : Int := 0
def IPC_ERR_INVALID : Int := 1
def IPC_ERR_DEAD : Int := 2
def IPC_ERR_NOPARTNER : Int := 6

/-- IPC_OP_SEND / IPC_OP_RECV from ipc.h. -/
def IPC_OP_SEND : Nat := 1
def IPC_OP_RECV : Nat := 2

/-- MSG_FLAG_NONBLOCK from ipc.h (1 << 3). -/
def MSG_FLAG_NONBLOCK : Nat := 8

/-- EP_FLAG_DEAD from ipc.h (1 << 3). -/
def EP_FLAG_DEAD : Nat := 8

/-- MSG_FLAGS from ipc.h: bits 33..26 of the tag. -/
def MSG_FLAGS (tag : Nat) : Nat := (tag >>> 26) &&& 0xFF

/-- MSG_LABEL from ipc.h: bits 63..44 of the tag. -/
def MSG_LABEL (tag : Nat) : Nat := (tag >>> 44) &&& 0xFFFFF

/-- MSG_TAG from ipc.h: pack label, length, cap count and flags into a
u64 tag. -/
def MSG_TAG (label len caps flags : Nat) : Nat :=
  ((label <<< 44) ||| (len <<< 38) ||| (caps <<< 34) ||| (flags <<< 26)) % 2 ^ 64

/-- An ipc_message (ipc.h): tag, the eight fast-path register words, the
optional extension buffer (none models a NULL buffer pointer) with its
length, and the capability count. -/
structure IpcMessage where
  tag : Nat
  regs : List Nat
  buffer : Option (List Nat)
  buffer_len : Nat
  nr_caps : Nat
deriving DecidableEq, Repr

/-- copy_message from message.c: copy the tag and the eight register
words, then the extension buffer if both sides have one (clipped to the
destination length); capability transfer is unimplemented and nr_caps is
zeroed. -/
def copy_message (dst src : IpcMessage) : IpcMessage :=
  { dst with
    tag := src.tag,
    regs := src.regs.take IPC_FAST_REGS ++ dst.regs.drop IPC_FAST_REGS,
    buffer :=
      match src.buffer, dst.buffer with
      | some sb, some db =>
        if src.buffer_len > 0 then
          some (sb.take (min src.buffer_len dst.buffer_len) ++
                db.drop (min src.buffer_len dst.buffer_len))
        else some db
      | _, db => db,
    nr_caps := 0 }

/-- An ipc_wait record (ipc.h): the waiting thread is identified by its
tid in partner (the C code stores the thread pointer there and later
overwrites it with the peer); msg is the message the waiter is sending
or the buffer it is receiving into (none models NULL). -/
structure IpcWait where
  partner : Nat
  msg : Option IpcMessage
  operation : Nat
  result : Int
deriving DecidableEq, Repr

/-- An ipc_endpoint (ipc.h): flags, and the two wait queues with their
message counters.  Queues are FIFO: list_add_tail appends, the head is
dequeued. -/
structure Endpoint where
  flags : Nat
  send_queue : List IpcWait
  recv_queue : List IpcWait
  msgs_sent : Nat
  msgs_received : Nat
deriving DecidableEq, Repr

/-- Outcome of one call to ipc_send or ipc_recv: an immediate return with
a code; a direct transfer (the completed peer wait record, the tid woken
by sched_wakeup, and for the receive side the receiver's filled message),
returning IPC_OK; or blocking after queueing the given wait record. -/
inductive IpcStep where
  | fail (code : Int) : IpcStep
  | direct (ep2 : Endpoint) (peer : IpcWait) (woken : Nat)
      (received : Option IpcMessage) : IpcStep
  | block (ep2 : Endpoint) (w : IpcWait) : IpcStep
deriving DecidableEq, Repr

/-- ipc_send from message.c (the NULL argument checks are outside this
model: callers pass valid records).  If the endpoint is dead, fail with
IPC_ERR_DEAD.  If a receiver waits, dequeue it, copy the message into its
buffer, mark its wait successful, record the sender as its partner,
count the message and wake it.  If no receiver and the tag carries
MSG_FLAG_NONBLOCK, fail with IPC_ERR_NOPARTNER.  Otherwise append a wait
record for the message to the send queue and block. -/
def ipc_send (self : Nat) (ep : Endpoint) (msg : IpcMessage) : IpcStep :=
  if ep.flags &&& EP_FLAG_DEAD ≠ 0 then IpcStep.fail IPC_ERR_DEAD
  else
    match ep.recv_queue with
    | recv_wait :: rest =>
      let done : IpcWait :=
        { recv_wait with
          msg := recv_wait.msg.map fun m => copy_message m msg,
          result := IPC_OK,
          partner := self }
      IpcStep.direct
        { ep with recv_queue := rest, msgs_sent := ep.msgs_sent + 1 }
        done recv_wait.partner none
    | [] =>
      if MSG_FLAGS msg.tag &&& MSG_FLAG_NONBLOCK ≠ 0 then
        IpcStep.fail IPC_ERR_NOPARTNER
      else
        let w : IpcWait :=
          { partner := self, msg := some msg, operation := IPC_OP_SEND,
            result := IPC_ERR_NOPARTNER }
        IpcStep.block { ep with send_queue := ep.send_queue ++ [w] } w

/-- ipc_recv from message.c, symmetric to ipc_send: drain the head queued
sender if one exists (copying its message into the receiver's buffer and
waking it), fail with IPC_ERR_NOPARTNER if none and non-blocking, else
queue on the receive side and block. -/
def ipc_recv (self : Nat) (ep : Endpoint) (msg : IpcMessage) : IpcStep :=
  if ep.flags &&& EP_FLAG_DEAD ≠ 0 then IpcStep.fail IPC_ERR_DEAD
  else
    match ep.send_queue with
    | send_wait :: rest =>
      let received : IpcMessage :=
        match send_wait.msg with
        | some sm => copy_message msg sm
        | none => msg
      let done : IpcWait :=
        { send_wait with result := IPC_OK, partner := self }
      IpcStep.direct
        { ep with send_queue := rest, msgs_received := ep.msgs_received + 1 }
        done send_wait.partner (some received)
    | [] =>
      if MSG_FLAGS msg.tag &&& MSG_FLAG_NONBLOCK ≠ 0 then
        IpcStep.fail IPC_ERR_NOPARTNER
      else
        let w : IpcWait :=
          { partner := self, msg := some msg, operation := IPC_OP_RECV,
            result := IPC_ERR_NOPARTNER }
        IpcStep.block { ep with recv_queue := ep.recv_queue ++ [w] } w

/-- C2: the four behaviours of ipc_send.  Dead endpoint: fail with
IPC_ERR_DEAD.  Receiver queued: the head receiver is dequeued, its buffer
receives exactly the sender's tag (hence label) and eight register words,
its wait record is marked IPC_OK, and that receiver is the thread woken;
msgs_sent advances and the send queue is untouched.  Empty receive queue
with MSG_FLAG_NONBLOCK: fail with IPC_ERR_NOPARTNER.  Otherwise a wait
record holding the message is appended to the send queue and the sender
blocks. -/
theorem C2_ipc_send_behaviour (self : Nat) (ep : Endpoint) (msg : IpcMessage)
    (halive : ep.flags &&& EP_FLAG_DEAD = 0) :
    (∀ ep2, ep2.flags &&& EP_FLAG_DEAD ≠ 0 →
      ipc_send self ep2 msg = IpcStep.fail IPC_ERR_DEAD) ∧
    (∀ w rest, ep.recv_queue = w :: rest →
      ∃ ep2 done,
        ipc_send self ep msg = IpcStep.direct ep2 done w.partner none ∧
        ep2.recv_queue = rest ∧
        ep2.send_queue = ep.send_queue ∧
        ep2.msgs_sent = ep.msgs_sent + 1 ∧
        ep2.msgs_received = ep.msgs_received ∧
        done.result = IPC_OK ∧
        done.partner = self ∧
        (∀ m, w.msg = some m →
          (∃ m2, done.msg = some m2 ∧
            m2.tag = msg.tag ∧
            MSG_LABEL m2.tag = MSG_LABEL msg.tag ∧
            m2.regs.take IPC_FAST_REGS = msg.regs.take IPC_FAST_REGS) ∨
          msg.regs.length < IPC_FAST_REGS) ∧
        (w.msg = none → done.msg = none)) ∧
    (ep.recv_queue = [] → MSG_FLAGS msg.tag &&& MSG_FLAG_NONBLOCK ≠ 0 →
      ipc_send self ep msg = IpcStep.fail IPC_ERR_NOPARTNER) ∧
    (ep.recv_queue = [] → MSG_FLAGS msg.tag &&& MSG_FLAG_NONBLOCK = 0 →
      ∃ ep2 w,
        ipc_send self ep msg = IpcStep.block ep2 w ∧
        ep2.send_queue = ep.send_queue ++ [w] ∧
        ep2.recv_queue = [] ∧
        ep2.msgs_sent = ep.msgs_sent ∧
        w.msg = some msg ∧
        w.partner = self ∧
        w.operation = IPC_OP_SEND) := by
  refine ⟨?_, ?_, ?_, ?_⟩
  · intro ep2 hdead
    unfold ipc_send
    rw [if_pos hdead]
  · intro w rest hq
    unfold ipc_send
    rw [if_neg (by simp [halive]), hq]
    refine ⟨_, _, rfl, rfl, rfl, rfl, rfl, rfl, rfl, ?_, ?_⟩
    · intro m hm
      by_cases hlen : msg.regs.length < IPC_FAST_REGS
      · exact Or.inr hlen
      · refine Or.inl ⟨copy_message m msg, by simp [hm], rfl, rfl, ?_⟩
        simp [copy_message]
        rw [List.take_append_of_le_length]
        · simp
        · simp
          omega
    · intro hm
      simp [hm]
  · intro hq hnb
    unfold ipc_send
    rw [if_neg (by simp [halive]), hq]
    simp only [if_pos hnb]
  · intro hq hb
    unfold ipc_send
    rw [if_neg (by simp [halive]), hq]
    rw [if_neg (by simp [hb])]
    exact ⟨_, _, rfl, rfl, rfl, rfl, rfl, rfl, rfl⟩

/-- Witness for C2, the literal spec scenario: a receiver is queued on a
live endpoint; a send with tag MSG_TAG(100,2,0,0) and registers
0xCAFE0000, 0xDEAD0000 delivers exactly label 100 and those registers to
the receiver and advances msgs_sent. -/
theorem C2_ipc_send_behaviour_witness :
    ∃ ep2 done,
      ipc_send 7
        { flags := 0,
          send_queue := [],
          recv_queue := [{ partner := 3,
                           msg := some { tag := 0, regs := [0, 0, 0, 0, 0, 0, 0, 0],
                                         buffer := none, buffer_len := 0,
                                         nr_caps := 0 },
                           operation := IPC_OP_RECV,
                           result := IPC_ERR_NOPARTNER }],
          msgs_sent := 0, msgs_received := 0 }
        { tag := MSG_TAG 100 2 0 0,
          regs := [0xCAFE0000, 0xDEAD0000, 0, 0, 0, 0, 0, 0],
          buffer := none, buffer_len := 0, nr_caps := 0 } =
        IpcStep.direct ep2 done 3 none ∧
      ep2.recv_queue = [] ∧
      ep2.send_queue = [] ∧
      ep2.msgs_sent = 1 ∧
      ep2.msgs_received = 0 ∧
      done.result = IPC_OK ∧
      done.partner = 7 ∧
      (∀ m, ({ partner := 3,
               msg := some { tag := 0, regs := [0, 0, 0, 0, 0, 0, 0, 0],
                             buffer := none, buffer_len := 0, nr_caps := 0 },
               operation := IPC_OP_RECV,
               result := IPC_ERR_NOPARTNER } : IpcWait).msg = some m →
        (∃ m2, done.msg = some m2 ∧
          m2.tag = MSG_TAG 100 2 0 0 ∧
          MSG_LABEL m2.tag = MSG_LABEL (MSG_TAG 100 2 0 0) ∧
          m2.regs.take IPC_FAST_REGS =
            ([0xCAFE0000, 0xDEAD0000, 0, 0, 0, 0, 0, 0] : List Nat).take
              IPC_FAST_REGS) ∨
        ([0xCAFE0000, 0xDEAD0000, 0, 0, 0, 0, 0, 0] : List Nat).length <
          IPC_FAST_REGS) := by
  obtain ⟨ep2, done, h1, h2, h3, h4, h5, h6, h7, h8, _⟩ :=
    (C2_ipc_send_behaviour 7
      { flags := 0,
        send_queue := [],
        recv_queue := [{ partner := 3,
                         msg := some { tag := 0, regs := [0, 0, 0, 0, 0, 0, 0, 0],
                                       buffer := none, buffer_len := 0,
                                       nr_caps := 0 },
                         operation := IPC_OP_RECV,
                         result := IPC_ERR_NOPARTNER }],
        msgs_sent := 0, msgs_received := 0 }
      { tag := MSG_TAG 100 2 0 0,
        regs := [0xCAFE0000, 0xDEAD0000, 0, 0, 0, 0, 0, 0],
        buffer := none, buffer_len := 0, nr_caps := 0 }
      (by decide)).2.1
      { partner := 3,
        msg := some { tag := 0, regs := [0, 0, 0, 0, 0, 0, 0, 0],
                      buffer := none, buffer_len := 0, nr_caps := 0 },
        operation := IPC_OP_RECV,
        result := IPC_ERR_NOPARTNER } [] rfl
  exact ⟨ep2, done, h1, h2, h3, h4, h5, h6, h7, h8⟩

/-- One IPC operation of a trace: a thread calls ipc_send or ipc_recv on
the endpoint with a message. -/
inductive IpcOp where
  | send (self : Nat) (msg : IpcMessage) : IpcOp
  | recv (self : Nat) (msg : IpcMessage) : IpcOp
deriving DecidableEq, Repr

/-- Observable event of one operation on the endpoint.  sendDirect: a
send completed inside ipc_send against a queued receiver.  recvDrain: a
receive drained a queued sender, completing that sender's send (peer is
the sender's wait record, marked with its result). -/
inductive IpcEv where
  | sendDirect (peer : IpcWait) : IpcEv
  | recvDrain (peer : IpcWait) : IpcEv
  | sendQueued : IpcEv
  | recvQueued : IpcEv
  | failed (code : Int) : IpcEv
deriving DecidableEq, Repr

/-- Apply one operation to the endpoint, producing the next endpoint
state and the event observed. -/
def epStep (ep : Endpoint) (op : IpcOp) : Endpoint × IpcEv :=
  match op with
  | IpcOp.send self msg =>
    match ipc_send self ep msg with
    | IpcStep.fail c => (ep, IpcEv.failed c)
    | IpcStep.direct ep2 peer _ _ => (ep2, IpcEv.sendDirect peer)
    | IpcStep.block ep2 _ => (ep2, IpcEv.sendQueued)
  | IpcOp.recv self msg =>
    match ipc_recv self ep msg with
    | IpcStep.fail c => (ep, IpcEv.failed c)
    | IpcStep.direct ep2 peer _ _ => (ep2, IpcEv.recvDrain peer)
    | IpcStep.block ep2 _ => (ep2, IpcEv.recvQueued)

/-- Run a trace of operations on an endpoint, collecting the events. -/
def epRun : Endpoint → List IpcOp → Endpoint × List IpcEv
  | ep, [] => (ep, [])
  | ep, op :: ops =>
    let s := epStep ep op
    let r := epRun s.1 ops
    (r.1, s.2 :: r.2)

/-- Does this event complete a send via the direct path of ipc_send? -/
def isSendDirect : IpcEv → Bool
  | IpcEv.sendDirect _ => true
  | _ => false

/-- Does this event complete a queued send via the drain path of
ipc_recv? -/
def isRecvDrain : IpcEv → Bool
  | IpcEv.recvDrain _ => true
  | _ => false

/-- Number of completed sends in a trace: sends completed directly inside
ipc_send, plus queued sends completed by a receiver draining them. -/
def completedSends (evs : List IpcEv) : Nat :=
  evs.countP fun e => isSendDirect e || isRecvDrain e

theorem ipc_send_direct_counters (self : Nat) (ep : Endpoint)
    (msg : IpcMessage) (ep2 : Endpoint) (peer : IpcWait) (wk : Nat)
    (rm : Option IpcMessage)
    (h : ipc_send self ep msg = IpcStep.direct ep2 peer wk rm) :
    ep2.msgs_sent = ep.msgs_sent + 1 ∧ ep2.msgs_received = ep.msgs_received := by
  unfold ipc_send at h
  split at h
  · simp at h
  · split at h
    · simp only [IpcStep.direct.injEq] at h
      obtain ⟨h1, -, -, -⟩ := h
      rw [← h1]
      exact ⟨rfl, rfl⟩
    · split at h <;> simp at h

theorem ipc_send_block_counters (self : Nat) (ep : Endpoint)
    (msg : IpcMessage) (ep2 : Endpoint) (w : IpcWait)
    (h : ipc_send self ep msg = IpcStep.block ep2 w) :
    ep2.msgs_sent = ep.msgs_sent ∧ ep2.msgs_received = ep.msgs_received := by
  unfold ipc_send at h
  split at h
  · simp at h
  · split at h
    · simp at h
    · split at h
      · simp at h
      · simp only [IpcStep.block.injEq] at h
        obtain ⟨h1, -⟩ := h
        rw [← h1]
        exact ⟨rfl, rfl⟩

theorem ipc_recv_direct_counters (self : Nat) (ep : Endpoint)
    (msg : IpcMessage) (ep2 : Endpoint) (peer : IpcWait) (wk : Nat)
    (rm : Option IpcMessage)
    (h : ipc_recv self ep msg = IpcStep.direct ep2 peer wk rm) :
    ep2.msgs_sent = ep.msgs_sent ∧ ep2.msgs_received = ep.msgs_received + 1 ∧
    peer.result = IPC_OK := by
  unfold ipc_recv at h
  split at h
  · simp at h
  · split at h
    · simp only [IpcStep.direct.injEq] at h
      obtain ⟨h1, h2, -, -⟩ := h
      rw [← h1, ← h2]
      exact ⟨rfl, rfl, rfl⟩
    · split at h <;> simp at h

theorem ipc_recv_block_counters (self : Nat) (ep : Endpoint)
    (msg : IpcMessage) (ep2 : Endpoint) (w : IpcWait)
    (h : ipc_recv self ep msg = IpcStep.block ep2 w) :
    ep2.msgs_sent = ep.msgs_sent ∧ ep2.msgs_received = ep.msgs_received := by
  unfold ipc_recv at h
  split at h
  · simp at h
  · split at h
    · simp at h
    · split at h
      · simp at h
      · simp only [IpcStep.block.injEq] at h
        obtain ⟨h1, -⟩ := h
        rw [← h1]
        exact ⟨rfl, rfl⟩

theorem epStep_counters (ep : Endpoint) (op : IpcOp) :
    (epStep ep op).1.msgs_sent =
      ep.msgs_sent + (if isSendDirect (epStep ep op).2 then 1 else 0) ∧
    (epStep ep op).1.msgs_received =
      ep.msgs_received + (if isRecvDrain (epStep ep op).2 then 1 else 0) ∧
    (∀ w, (epStep ep op).2 = IpcEv.recvDrain w → w.result = IPC_OK) := by
  cases op with
  | send self msg =>
    cases hval : ipc_send self ep msg with
    | fail c => simp [epStep, hval, isSendDirect, isRecvDrain]
    | direct ep2 peer wk rm =>
      obtain ⟨h1, h2⟩ := ipc_send_direct_counters self ep msg ep2 peer wk rm hval
      simp [epStep, hval, isSendDirect, isRecvDrain, h1, h2]
    | block ep2 w =>
      obtain ⟨h1, h2⟩ := ipc_send_block_counters self ep msg ep2 w hval
      simp [epStep, hval, isSendDirect, isRecvDrain, h1, h2]
  | recv self msg =>
    cases hval : ipc_recv self ep msg with
    | fail c => simp [epStep, hval, isSendDirect, isRecvDrain]
    | direct ep2 peer wk rm =>
      obtain ⟨h1, h2, h3⟩ := ipc_recv_direct_counters self ep msg ep2 peer wk rm hval
      refine ⟨by simp [epStep, hval, isSendDirect, h1],
              by simp [epStep, hval, isRecvDrain, h2], ?_⟩
      intro w hw
      simp only [epStep, hval] at hw
      simp only [IpcEv.recvDrain.injEq] at hw
      rw [← hw]
      exact h3
    | block ep2 w =>
      obtain ⟨h1, h2⟩ := ipc_recv_block_counters self ep msg ep2 w hval
      simp [epStep, hval, isSendDirect, isRecvDrain, h1, h2]

/-- C3, counterexample: on a fresh endpoint a blocking send queues the
sender; a following receive drains it, completing that send (the sender's
wait record carries IPC_OK), so one send has completed — but msgs_sent is
still 0 (ipc_recv's drain path increments msgs_received instead), contra
the claim that msgs_sent counts completed sends regardless of path. -/
theorem C3_msgs_sent_counterexample :
    completedSends
      (epRun { flags := 0, send_queue := [], recv_queue := [],
               msgs_sent := 0, msgs_received := 0 }
        [IpcOp.send 1 { tag := 0, regs := [], buffer := none,
                        buffer_len := 0, nr_caps := 0 },
         IpcOp.recv 2 { tag := 0, regs := [], buffer := none,
                        buffer_len := 0, nr_caps := 0 }]).2 = 1 ∧
    (epRun { flags := 0, send_queue := [], recv_queue := [],
             msgs_sent := 0, msgs_received := 0 }
        [IpcOp.send 1 { tag := 0, regs := [], buffer := none,
                        buffer_len := 0, nr_caps := 0 },
         IpcOp.recv 2 { tag := 0, regs := [], buffer := none,
                        buffer_len := 0, nr_caps := 0 }]).1.msgs_sent = 0 ∧
    (∃ w, (epRun { flags := 0, send_queue := [], recv_queue := [],
                   msgs_sent := 0, msgs_received := 0 }
        [IpcOp.send 1 { tag := 0, regs := [], buffer := none,
                        buffer_len := 0, nr_caps := 0 },
         IpcOp.recv 2 { tag := 0, regs := [], buffer := none,
                        buffer_len := 0, nr_caps := 0 }]).2 =
        [IpcEv.sendQueued, IpcEv.recvDrain w] ∧ w.result = IPC_OK) := by
  refine ⟨rfl, rfl, ⟨_, rfl, rfl⟩⟩

/-- C3 as amended: msgs_sent counts exactly the sends completed via the
direct-transfer path inside ipc_send; a send completed by a receiver
draining the queued sender increments msgs_received instead; the sum of
the two counters advances by the total number of completed sends, and
every drained sender's wait record carries IPC_OK. -/
theorem C3_msgs_sent_amended (ops : List IpcOp) (ep : Endpoint) :
    (epRun ep ops).1.msgs_sent =
      ep.msgs_sent + ((epRun ep ops).2.countP fun e => isSendDirect e) ∧
    (epRun ep ops).1.msgs_received =
      ep.msgs_received + ((epRun ep ops).2.countP fun e => isRecvDrain e) ∧
    (epRun ep ops).1.msgs_sent + (epRun ep ops).1.msgs_received =
      ep.msgs_sent + ep.msgs_received + completedSends (epRun ep ops).2 ∧
    (∀ w, IpcEv.recvDrain w ∈ (epRun ep ops).2 → w.result = IPC_OK) := by
  induction ops generalizing ep with
  | nil =>
    simp [epRun, completedSends]
  | cons op ops ih =>
    obtain ⟨h1, h2, h3⟩ := epStep_counters ep op
    obtain ⟨g1, g2, g3, g4⟩ := ih (epStep ep op).1
    simp only [epRun]
    refine ⟨?_, ?_, ?_, ?_⟩
    · rw [List.countP_cons, g1, h1]
      by_cases hc : isSendDirect (epStep ep op).2
      · simp [hc]; omega
      · simp [hc]
    · rw [List.countP_cons, g2, h2]
      by_cases hc : isRecvDrain (epStep ep op).2
      · simp [hc]; omega
      · simp [hc]
    · simp only [completedSends] at g3 ⊢
      rw [List.countP_cons, g3, h1, h2]
      cases he : (epStep ep op).2 <;>
        simp [isSendDirect, isRecvDrain, he] <;> omega
    · intro w hw
      rcases List.mem_cons.mp hw with hw | hw
      · exact h3 w hw.symm
      · exact g4 w hw

/-- Witness for C3 amended, on the counterexample trace: the sum of the
counters does advance by the completed send even though msgs_sent does
not. -/
theorem C3_msgs_sent_amended_witness :
    (epRun { flags := 0, send_queue := [], recv_queue := [],
             msgs_sent := 0, msgs_received := 0 }
        [IpcOp.send 1 { tag := 0, regs := [], buffer := none,
                        buffer_len := 0, nr_caps := 0 },
         IpcOp.recv 2 { tag := 0, regs := [], buffer := none,
                        buffer_len := 0, nr_caps := 0 }]).1.msgs_sent +
      (epRun { flags := 0, send_queue := [], recv_queue := [],
               msgs_sent := 0, msgs_received := 0 }
        [IpcOp.send 1 { tag := 0, regs := [], buffer := none,
                        buffer_len := 0, nr_caps := 0 },
         IpcOp.recv 2 { tag := 0, regs := [], buffer := none,
                        buffer_len := 0, nr_caps := 0 }]).1.msgs_received =
      0 + 0 + completedSends
        (epRun { flags := 0, send_queue := [], recv_queue := [],
                 msgs_sent := 0, msgs_received := 0 }
          [IpcOp.send 1 { tag := 0, regs := [], buffer := none,
                          buffer_len := 0, nr_caps := 0 },
           IpcOp.recv 2 { tag := 0, regs := [], buffer := none,
                          buffer_len := 0, nr_caps := 0 }]).2 :=
  (C3_msgs_sent_amended
    [IpcOp.send 1 { tag := 0, regs := [], buffer := none,
                    buffer_len := 0, nr_caps := 0 },
     IpcOp.recv 2 { tag := 0, regs := [], buffer := none,
                    buffer_len := 0, nr_caps := 0 }]
    { flags := 0, send_queue := [], recv_queue := [],
      msgs_sent := 0, msgs_received := 0 }).2.2.1

end Ipc

namespace Sched

/-- The 140 priority levels of the scheduler (the maximum-priority constant of process.h). -/
def MAX_PRIORITY : Nat := 140

/-- DEFAULT_TIME_SLICE from process.h: 10 ms in nanoseconds. -/
def DEFAULT_TIME_SLICE : Nat := 10 * 1000 * 1000

/-- Thread scheduling states from process.h. -/
inductive TaskState where
  | running : TaskState
  | interruptible : TaskState
  | uninterruptible : TaskState
  | stopped : TaskState
  | zombie : TaskState
  | dead : TaskState
deriving DecidableEq, Repr

/-- The scheduler-relevant fields of struct thread.  priority is the C
int field; onRq models the linkage state of the intrusive run_list node
(true iff list_del_init has not detached it since the last enqueue),
which is what the C code's list_empty(&t->run_list) observes. -/
structure SThread where
  priority : Int
  state : TaskState
  time_slice : Nat
  onRq : Bool
deriving DecidableEq, Repr

/-- A run queue (sched.h): the C array `struct list_head queue[MAX_PRIORITY]`
is modelled as a function from priority to the FIFO list of tids in that
queue, and the `u64 bitmap[3]` words as a bit-per-priority function. -/
structure RunQueue where
  queue : Nat → List Nat
  bitmap : Nat → Bool
  nr_running : Nat
  curr : Option Nat
  idle : Nat

/-- Scheduler state: the (single, CPU 0) run queue plus the thread
records, indexed by tid. -/
structure SchedState where
  rq : RunQueue
  threads : Nat → SThread

/-- The priority clamp at the top of sched_add. -/
def clampPrio (p : Int) : Nat :=
  if p < 0 then 0 else if p ≥ (MAX_PRIORITY : Int) then MAX_PRIORITY - 1 else p.toNat

/-- Common enqueue step: list_add_tail into queue[prio], bitmap_set,
nr_running++ (used by sched_add and by schedule's re-enqueue of the
current thread). -/
def enqueueAt (s : SchedState) (tid : Nat) (prio : Nat) : SchedState :=
  { rq := { s.rq with
      queue := Function.update s.rq.queue prio (s.rq.queue prio ++ [tid]),
      bitmap := Function.update s.rq.bitmap prio true,
      nr_running := s.rq.nr_running + 1 },
    threads := Function.update s.threads tid { s.threads tid with onRq := true } }

/-- sched_add from core.c: clamp the priority, append to that queue, set
the bitmap bit, bump nr_running and mark the thread TASK_RUNNING. -/
def sched_add (s : SchedState) (tid : Nat) : SchedState :=
  let s1 := enqueueAt s tid (clampPrio (s.threads tid).priority)
  let t2 := { s1.threads tid with state := TaskState.running }
  { s1 with threads := Function.update s1.threads tid t2 }

/-- sched_remove from core.c: if the thread is linked, unlink it,
decrement nr_running and clear the bitmap bit of queue[t->priority] when
that queue became empty. -/
def sched_remove (s : SchedState) (tid : Nat) : SchedState :=
  if (s.threads tid).onRq then
    { rq := { s.rq with
        queue := Function.update s.rq.queue (s.threads tid).priority.toNat
          ((s.rq.queue (s.threads tid).priority.toNat).erase tid),
        bitmap :=
          if (s.rq.queue (s.threads tid).priority.toNat).erase tid = []
          then Function.update s.rq.bitmap (s.threads tid).priority.toNat false
          else s.rq.bitmap,
        nr_running := s.rq.nr_running - 1 },
      threads :=
        Function.update s.threads tid ({ s.threads tid with onRq := false }) }
  else s

/-- bitmap_ffs from core.c: index of the first set bit, none if the
bitmap is empty. -/
def bitmap_ffs (bm : Nat → Bool) : Option Nat :=
  (List.range MAX_PRIORITY).find? fun p => bm p

/-- pick_next_thread from core.c: pop the head of the highest-priority
nonempty queue, clearing the bitmap bit if it became empty; with an empty
bitmap return the idle thread and change nothing.  The inner [] arm is
unreachable whenever the bitmap invariant holds. -/
def pick_next_thread (s : SchedState) : Nat × SchedState :=
  match bitmap_ffs s.rq.bitmap with
  | none => (s.rq.idle, s)
  | some prio =>
    match s.rq.queue prio with
    | [] => (s.rq.idle, s)
    | next :: rest =>
      (next,
       { rq := { s.rq with
           queue := Function.update s.rq.queue prio rest,
           bitmap := if rest = [] then Function.update s.rq.bitmap prio false
                     else s.rq.bitmap,
           nr_running := s.rq.nr_running - 1 },
         threads := Function.update s.threads next
           ({ s.threads next with onRq := false }) })

/-- schedule from core.c: take the current thread (falling back to idle),
re-enqueue it at the tail of its priority when still TASK_RUNNING and not
idle, pick the next thread and make it current.  The preemption counter
and the TF_NEED_RESCHED handling of preempt_enable gate only when this
function runs and are not modelled; the context-switch CR3 / per-CPU
stack effects are outside the run-queue state. -/
def schedule (s : SchedState) : SchedState :=
  let prev := match s.rq.curr with | some t => t | none => s.rq.idle
  let s1 := { s with rq := { s.rq with curr := some prev } }
  let s2 :=
    if (s1.threads prev).state = TaskState.running ∧ prev ≠ s1.rq.idle
    then enqueueAt s1 prev (s1.threads prev).priority.toNat
    else s1
  let pk := pick_next_thread s2
  { pk.2 with rq := { pk.2.rq with curr := some pk.1 } }

/-- sched_wakeup from core.c: a no-op on an already TASK_RUNNING thread;
otherwise mark it running, reset its time slice to the default and
enqueue it via sched_add. -/
def sched_wakeup (s : SchedState) (tid : Nat) : SchedState :=
  if (s.threads tid).state = TaskState.running then s
  else
    let t2 : SThread :=
      { s.threads tid with
        state := TaskState.running
        time_slice := DEFAULT_TIME_SLICE }
    let s1 : SchedState := { s with threads := Function.update s.threads tid t2 }
    sched_add s1 tid

/-- Total number of occurrences of tid across all priority queues. -/
def countQueued (s : SchedState) (tid : Nat) : Nat :=
  ∑ p ∈ Finset.range MAX_PRIORITY, (s.rq.queue p).count tid

theorem clampPrio_lt (p : Int) : clampPrio p < MAX_PRIORITY := by
  unfold clampPrio MAX_PRIORITY
  split
  · omega
  · split
    · omega
    · rename_i h1 h2
      omega

theorem count_update_append (f : Nat → List Nat) (i : Nat) (tid : Nat)
    (hi : i ∈ Finset.range MAX_PRIORITY) :
    (∑ p ∈ Finset.range MAX_PRIORITY,
      ((Function.update f i (f i ++ [tid])) p).count tid) =
    (∑ p ∈ Finset.range MAX_PRIORITY, (f p).count tid) + 1 := by
  have hfun : ∀ p, ((Function.update f i (f i ++ [tid])) p).count tid =
      Function.update (fun q => (f q).count tid) i ((f i).count tid + 1) p := by
    intro p
    by_cases h : p = i
    · subst h; simp [Function.update]
    · simp [Function.update, h]
  rw [Finset.sum_congr rfl fun p _ => hfun p]
  rw [Finset.sum_update_of_mem hi]
  rw [← Finset.sum_erase_add (Finset.range MAX_PRIORITY) _ hi]
  simp only [Finset.erase_eq] at *
  omega

/-- C9: sched_wakeup on an already-running thread changes nothing, so
waking the same blocked thread twice enqueues it exactly once and resets
its time slice to the default exactly once (the second call is the
identity). -/
theorem C9_sched_wakeup_idempotent :
    (∀ s tid, (s.threads tid).state = TaskState.running →
      sched_wakeup s tid = s) ∧
    (∀ s tid, (s.threads tid).state ≠ TaskState.running →
      sched_wakeup (sched_wakeup s tid) tid = sched_wakeup s tid ∧
      countQueued (sched_wakeup s tid) tid = countQueued s tid + 1 ∧
      ((sched_wakeup s tid).threads tid).time_slice = DEFAULT_TIME_SLICE) := by
  have hrun : ∀ s tid, (s.threads tid).state = TaskState.running →
      sched_wakeup s tid = s := by
    intro s tid h
    unfold sched_wakeup
    rw [if_pos h]
  refine ⟨hrun, ?_⟩
  intro s tid h
  have hstate : ((sched_wakeup s tid).threads tid).state = TaskState.running := by
    unfold sched_wakeup
    rw [if_neg h]
    simp [sched_add, enqueueAt, Function.update]
  refine ⟨hrun _ tid hstate, ?_, ?_⟩
  · unfold sched_wakeup
    rw [if_neg h]
    simp only [countQueued, sched_add, enqueueAt]
    exact count_update_append _ _ tid (Finset.mem_range.mpr (clampPrio_lt _))
  · unfold sched_wakeup
    rw [if_neg h]
    simp [sched_add, enqueueAt, Function.update]

/-- Witness for C9: a concrete blocked thread (tid 5, priority 120)
woken twice on an empty run queue. -/
theorem C9_sched_wakeup_idempotent_witness :
    sched_wakeup
      (sched_wakeup
        { rq := { queue := fun _ => [], bitmap := fun _ => false,
                  nr_running := 0, curr := none, idle := 0 },
          threads := fun _ =>
            { priority := 120, state := TaskState.interruptible,
              time_slice := 3, onRq := false } } 5) 5 =
      sched_wakeup
        { rq := { queue := fun _ => [], bitmap := fun _ => false,
                  nr_running := 0, curr := none, idle := 0 },
          threads := fun _ =>
            { priority := 120, state := TaskState.interruptible,
              time_slice := 3, onRq := false } } 5 ∧
    countQueued
      (sched_wakeup
        { rq := { queue := fun _ => [], bitmap := fun _ => false,
                  nr_running := 0, curr := none, idle := 0 },
          threads := fun _ =>
            { priority := 120, state := TaskState.interruptible,
              time_slice := 3, onRq := false } } 5) 5 =
      countQueued
        { rq := { queue := fun _ => [], bitmap := fun _ => false,
                  nr_running := 0, curr := none, idle := 0 },
          threads := fun _ =>
            { priority := 120, state := TaskState.interruptible,
              time_slice := 3, onRq := false } } 5 + 1 := by
  obtain ⟨h1, h2, -⟩ := C9_sched_wakeup_idempotent.2
    { rq := { queue := fun _ => [], bitmap := fun _ => false,
              nr_running := 0, curr := none, idle := 0 },
      threads := fun _ =>
        { priority := 120, state := TaskState.interruptible,
          time_slice := 3, onRq := false } } 5 (by decide)
  exact ⟨h1, h2⟩

/-- Total length of all priority queues. -/
def sumQueueLens (rq : RunQueue) : Nat :=
  ∑ p ∈ Finset.range MAX_PRIORITY, (rq.queue p).length

/-- The claimed run-queue invariant: the bitmap bit of priority p is set
exactly when queue p is nonempty, and nr_running is the sum of the queue
lengths. -/
def BitmapInv (s : SchedState) : Prop :=
  (∀ p, p < MAX_PRIORITY → (s.rq.bitmap p = true ↔ s.rq.queue p ≠ [])) ∧
  s.rq.nr_running = sumQueueLens s.rq

/-- Structural facts carried through the induction: every thread's
priority field is in [0, MAX_PRIORITY) (the range the claim quantifies over),
and a linked thread sits in the queue of its priority. -/
def SchedWF (s : SchedState) : Prop :=
  (∀ tid, 0 ≤ (s.threads tid).priority ∧
    (s.threads tid).priority < (MAX_PRIORITY : Int)) ∧
  (∀ tid, (s.threads tid).onRq = true →
    tid ∈ s.rq.queue (s.threads tid).priority.toNat)

/-- One scheduler operation of a trace. -/
inductive SchedOp where
  | add (tid : Nat) : SchedOp
  | remove (tid : Nat) : SchedOp
  | pick : SchedOp
  | sched : SchedOp
deriving DecidableEq, Repr

/-- Apply one scheduler operation. -/
def schedStep (s : SchedState) : SchedOp → SchedState
  | SchedOp.add tid => sched_add s tid
  | SchedOp.remove tid => sched_remove s tid
  | SchedOp.pick => (pick_next_thread s).2
  | SchedOp.sched => schedule s

/-- Run a trace of scheduler operations. -/
def schedRun (s : SchedState) (ops : List SchedOp) : SchedState :=
  ops.foldl schedStep s

/-- The thread record sched_init builds for the idle thread: lowest
priority MAX_PRIORITY - 1, TASK_RUNNING, not linked on any queue. -/
def idleThread : SThread :=
  { priority := (MAX_PRIORITY : Int) - 1, state := TaskState.running,
    time_slice := DEFAULT_TIME_SLICE, onRq := false }

/-- sched_init from core.c: empty queues, zero bitmap, nr_running 0, the
idle thread created and installed as current. -/
def sched_init (tm : Nat → SThread) (idleTid : Nat) : SchedState :=
  { rq := { queue := fun _ => [], bitmap := fun _ => false, nr_running := 0,
            curr := some idleTid, idle := idleTid },
    threads := Function.update tm idleTid idleThread }

theorem clampPrio_eq_toNat (p : Int) (h0 : 0 ≤ p) (h1 : p < (MAX_PRIORITY : Int)) :
    clampPrio p = p.toNat := by
  unfold clampPrio
  unfold MAX_PRIORITY at h1 ⊢
  split
  · omega
  · split
    · omega
    · rfl

theorem sum_lens_update (f : Nat → List Nat) (i : Nat) (l : List Nat)
    (hi : i ∈ Finset.range MAX_PRIORITY) :
    (∑ p ∈ Finset.range MAX_PRIORITY, ((Function.update f i l) p).length) +
      (f i).length =
    (∑ p ∈ Finset.range MAX_PRIORITY, (f p).length) + l.length := by
  have hfun : ∀ p, ((Function.update f i l) p).length =
      Function.update (fun q => (f q).length) i l.length p := by
    intro p
    by_cases h : p = i
    · subst h; simp [Function.update]
    · simp [Function.update, h]
  rw [Finset.sum_congr rfl fun p _ => hfun p]
  rw [Finset.sum_update_of_mem hi]
  rw [← Finset.sum_erase_add (Finset.range MAX_PRIORITY) _ hi]
  simp only [Finset.erase_eq] at *
  omega

theorem len_le_sum (f : Nat → List Nat) (i : Nat) (hi : i < MAX_PRIORITY) :
    (f i).length ≤ ∑ p ∈ Finset.range MAX_PRIORITY, (f p).length :=
  Finset.single_le_sum (fun j _ => Nat.zero_le ((f j).length))
    (Finset.mem_range.mpr hi)

theorem enqueueAt_preserves (s : SchedState) (tid : Nat)
    (hB : BitmapInv s) (hW : SchedWF s)
    (hcp : (s.threads tid).priority.toNat < MAX_PRIORITY) :
    BitmapInv (enqueueAt s tid (s.threads tid).priority.toNat) ∧
    SchedWF (enqueueAt s tid (s.threads tid).priority.toNat) := by
  obtain ⟨hb, hn⟩ := hB
  obtain ⟨hw1, hw2⟩ := hW
  set cp := (s.threads tid).priority.toNat with hcpdef
  refine ⟨⟨?_, ?_⟩, ?_, ?_⟩
  · intro p hp
    by_cases h : p = cp
    · subst h
      simp [enqueueAt, Function.update_same]
    · simp [enqueueAt, Function.update_noteq h]
      exact hb p hp
  · have := sum_lens_update s.rq.queue cp (s.rq.queue cp ++ [tid])
      (Finset.mem_range.mpr hcp)
    simp only [enqueueAt, sumQueueLens] at *
    simp only [List.length_append, List.length_cons, List.length_nil] at this
    omega
  · intro t
    by_cases h : t = tid
    · subst h
      simp [enqueueAt, Function.update_same]
      exact hw1 t
    · simp [enqueueAt, Function.update_noteq h]
      exact hw1 t
  · intro t ht
    by_cases h : t = tid
    · subst h
      simp only [enqueueAt, Function.update_same] at ht ⊢
      exact List.mem_append_right _ (List.mem_singleton.mpr rfl)
    · simp only [enqueueAt, Function.update_noteq h] at ht ⊢
      have hmem := hw2 t ht
      by_cases hq : (s.threads t).priority.toNat = cp
      · rw [hq, Function.update_same]
        rw [hq] at hmem
        exact List.mem_append_left _ hmem
      · rw [Function.update_noteq hq]
        exact hmem

theorem touch_preserves (s : SchedState) (tid : Nat) (t2 : SThread)
    (hB : BitmapInv s) (hW : SchedWF s)
    (hpr : t2.priority = (s.threads tid).priority)
    (hrq : t2.onRq = (s.threads tid).onRq) :
    BitmapInv { s with threads := Function.update s.threads tid t2 } ∧
    SchedWF { s with threads := Function.update s.threads tid t2 } := by
  obtain ⟨hw1, hw2⟩ := hW
  refine ⟨hB, ?_, ?_⟩
  · intro t
    by_cases h : t = tid
    · subst h
      simp only [Function.update_same, hpr]
      exact hw1 t
    · simp only [Function.update_noteq h]
      exact hw1 t
  · intro t ht
    by_cases h : t = tid
    · subst h
      simp only [Function.update_same] at ht ⊢
      rw [hpr]
      exact hw2 t (by rw [← hrq]; exact ht)
    · simp only [Function.update_noteq h] at ht ⊢
      exact hw2 t ht

theorem sched_add_preserves (s : SchedState) (tid : Nat)
    (hB : BitmapInv s) (hW : SchedWF s) :
    BitmapInv (sched_add s tid) ∧ SchedWF (sched_add s tid) := by
  have hcl : clampPrio (s.threads tid).priority =
      (s.threads tid).priority.toNat :=
    clampPrio_eq_toNat _ (hW.1 tid).1 (hW.1 tid).2
  have hlt : (s.threads tid).priority.toNat < MAX_PRIORITY := by
    have := hW.1 tid
    unfold MAX_PRIORITY at *
    omega
  obtain ⟨hB1, hW1⟩ := enqueueAt_preserves s tid hB hW hlt
  unfold sched_add
  rw [hcl]
  exact touch_preserves _ tid _ hB1 hW1 (by simp [enqueueAt]) (by simp [enqueueAt])

theorem sched_remove_preserves (s : SchedState) (tid : Nat)
    (hB : BitmapInv s) (hW : SchedWF s) :
    BitmapInv (sched_remove s tid) ∧ SchedWF (sched_remove s tid) := by
  obtain ⟨hb, hn⟩ := hB
  obtain ⟨hw1, hw2⟩ := hW
  unfold sched_remove
  by_cases ho : (s.threads tid).onRq
  swap
  · rw [if_neg ho]
    exact ⟨⟨hb, hn⟩, hw1, hw2⟩
  rw [if_pos ho]
  have hlt : (s.threads tid).priority.toNat < MAX_PRIORITY := by
    have := hw1 tid
    unfold MAX_PRIORITY at *
    omega
  have hmem : tid ∈ s.rq.queue (s.threads tid).priority.toNat := hw2 tid ho
  have hqne : s.rq.queue (s.threads tid).priority.toNat ≠ [] := by
    intro hc
    rw [hc] at hmem
    exact absurd hmem (List.not_mem_nil tid)
  have hbit : s.rq.bitmap (s.threads tid).priority.toNat = true :=
    (hb _ hlt).mpr hqne
  have hlen : ((s.rq.queue (s.threads tid).priority.toNat).erase tid).length + 1 =
      (s.rq.queue (s.threads tid).priority.toNat).length := by
    rw [List.length_erase_of_mem hmem]
    have hpos : 0 < (s.rq.queue (s.threads tid).priority.toNat).length :=
      List.length_pos.mpr hqne
    omega
  refine ⟨⟨?_, ?_⟩, ?_, ?_⟩
  · intro p hp
    show (if (s.rq.queue (s.threads tid).priority.toNat).erase tid = []
          then Function.update s.rq.bitmap (s.threads tid).priority.toNat false
          else s.rq.bitmap) p = true ↔
      Function.update s.rq.queue (s.threads tid).priority.toNat
        ((s.rq.queue (s.threads tid).priority.toNat).erase tid) p ≠ []
    by_cases hq2 : (s.rq.queue (s.threads tid).priority.toNat).erase tid = []
    · rw [if_pos hq2]
      by_cases h : p = (s.threads tid).priority.toNat
      · subst h
        rw [Function.update_same, Function.update_same, hq2]
        simp
      · rw [Function.update_noteq h, Function.update_noteq h]
        exact hb p hp
    · rw [if_neg hq2]
      by_cases h : p = (s.threads tid).priority.toNat
      · subst h
        rw [Function.update_same]
        exact ⟨fun _ => hq2, fun _ => hbit⟩
      · rw [Function.update_noteq h]
        exact hb p hp
  · have hsum := sum_lens_update s.rq.queue ((s.threads tid).priority.toNat)
      ((s.rq.queue ((s.threads tid).priority.toNat)).erase tid)
      (Finset.mem_range.mpr hlt)
    have hpos : (s.rq.queue ((s.threads tid).priority.toNat)).length ≤
        ∑ p ∈ Finset.range MAX_PRIORITY, (s.rq.queue p).length :=
      len_le_sum s.rq.queue _ hlt
    unfold sumQueueLens at hn ⊢
    simp only []
    omega
  · intro t
    simp only []
    by_cases h : t = tid
    · subst h
      rw [Function.update_same]
      exact hw1 t
    · rw [Function.update_noteq h]
      exact hw1 t
  · intro t ht
    simp only [] at ht ⊢
    by_cases h : t = tid
    · subst h
      rw [Function.update_same] at ht
      simp at ht
    · rw [Function.update_noteq h] at ht ⊢
      have hmem2 := hw2 t ht
      by_cases hpq : (s.threads t).priority.toNat =
          (s.threads tid).priority.toNat
      · rw [hpq, Function.update_same]
        exact (List.mem_erase_of_ne h).mpr (hpq ▸ hmem2)
      · rw [Function.update_noteq hpq]
        exact hmem2

theorem pick_next_preserves (s : SchedState)
    (hB : BitmapInv s) (hW : SchedWF s) :
    BitmapInv (pick_next_thread s).2 ∧ SchedWF (pick_next_thread s).2 := by
  obtain ⟨hb, hn⟩ := hB
  obtain ⟨hw1, hw2⟩ := hW
  cases hffs : bitmap_ffs s.rq.bitmap with
  | none =>
    unfold pick_next_thread
    rw [hffs]
    exact ⟨⟨hb, hn⟩, hw1, hw2⟩
  | some prio =>
    have hlt : prio < MAX_PRIORITY := by
      have hmem := List.mem_of_find?_eq_some hffs
      exact List.mem_range.mp hmem
    have hbit : s.rq.bitmap prio = true := by
      have hpred := List.find?_some hffs
      simpa using hpred
    have hqne : s.rq.queue prio ≠ [] := (hb prio hlt).mp hbit
    rcases hq : s.rq.queue prio with _ | ⟨next, rest⟩
    · exact absurd hq hqne
    · have hlen : rest.length + 1 = (s.rq.queue prio).length := by
        rw [hq]
        simp
      unfold pick_next_thread
      simp only [hffs, hq]
      refine ⟨⟨?_, ?_⟩, ?_, ?_⟩
      · intro p hp
        show (if rest = []
              then Function.update s.rq.bitmap prio false
              else s.rq.bitmap) p = true ↔
          Function.update s.rq.queue prio rest p ≠ []
        by_cases hr : rest = []
        · rw [if_pos hr]
          by_cases h : p = prio
          · subst h
            rw [Function.update_same, Function.update_same, hr]
            simp
          · rw [Function.update_noteq h, Function.update_noteq h]
            exact hb p hp
        · rw [if_neg hr]
          by_cases h : p = prio
          · subst h
            rw [Function.update_same]
            exact ⟨fun _ => hr, fun _ => hbit⟩
          · rw [Function.update_noteq h]
            exact hb p hp
      · have hsum := sum_lens_update s.rq.queue prio rest
          (Finset.mem_range.mpr hlt)
        have hpos : (s.rq.queue prio).length ≤
            ∑ p ∈ Finset.range MAX_PRIORITY, (s.rq.queue p).length :=
          len_le_sum s.rq.queue prio hlt
        unfold sumQueueLens at hn ⊢
        simp only []
        omega
      · intro t
        simp only []
        by_cases h : t = next
        · subst h
          rw [Function.update_same]
          exact hw1 t
        · rw [Function.update_noteq h]
          exact hw1 t
      · intro t ht
        simp only [] at ht ⊢
        by_cases h : t = next
        · subst h
          rw [Function.update_same] at ht
          simp at ht
        · rw [Function.update_noteq h] at ht ⊢
          have hmem2 := hw2 t ht
          by_cases hpq : (s.threads t).priority.toNat = prio
          · rw [hpq, Function.update_same]
            have hmem3 : t ∈ s.rq.queue prio := hpq ▸ hmem2
            rw [hq] at hmem3
            rcases List.mem_cons.mp hmem3 with hc | hc
            · exact absurd hc h
            · exact hc
          · rw [Function.update_noteq hpq]
            exact hmem2

theorem schedule_preserves (s : SchedState)
    (hB : BitmapInv s) (hW : SchedWF s) :
    BitmapInv (schedule s) ∧ SchedWF (schedule s) := by
  unfold schedule
  set prev := match s.rq.curr with | some t => t | none => s.rq.idle with hprev
  set s1 : SchedState := { s with rq := { s.rq with curr := some prev } } with hs1
  have hB1 : BitmapInv s1 := hB
  have hW1 : SchedWF s1 := hW
  set s2 := if (s1.threads prev).state = TaskState.running ∧ prev ≠ s1.rq.idle
    then enqueueAt s1 prev (s1.threads prev).priority.toNat else s1 with hs2
  have h2 : BitmapInv s2 ∧ SchedWF s2 := by
    rw [hs2]
    split
    · exact enqueueAt_preserves s1 prev hB1 hW1 (by
        have := hW1.1 prev
        unfold MAX_PRIORITY at *
        omega)
    · exact ⟨hB1, hW1⟩
  have h3 := pick_next_preserves s2 h2.1 h2.2
  exact h3

theorem schedStep_preserves (s : SchedState) (op : SchedOp)
    (hB : BitmapInv s) (hW : SchedWF s) :
    BitmapInv (schedStep s op) ∧ SchedWF (schedStep s op) := by
  cases op with
  | add tid => exact sched_add_preserves s tid hB hW
  | remove tid => exact sched_remove_preserves s tid hB hW
  | pick => exact pick_next_preserves s hB hW
  | sched => exact schedule_preserves s hB hW

theorem schedRun_preserves (ops : List SchedOp) (s : SchedState)
    (hB : BitmapInv s) (hW : SchedWF s) :
    BitmapInv (schedRun s ops) ∧ SchedWF (schedRun s ops) := by
  induction ops generalizing s with
  | nil => exact ⟨hB, hW⟩
  | cons op ops ih =>
    have h := schedStep_preserves s op hB hW
    exact ih (schedStep s op) h.1 h.2

/-- C5: after any sequence of sched_add, sched_remove, pick_next_thread
and schedule operations from the initial scheduler state, provided every
thread's priority field lies in [0, 140), the 140-bit bitmap has the bit
of priority p set iff queue p is nonempty, and nr_running equals the sum
of all queue lengths. -/
theorem C5_runqueue_bitmap_invariant (tm : Nat → SThread) (idleTid : Nat)
    (hprio : ∀ n, 0 ≤ (tm n).priority ∧ (tm n).priority < (MAX_PRIORITY : Int))
    (hlinked : ∀ n, (tm n).onRq = false)
    (ops : List SchedOp) :
    (∀ p, p < MAX_PRIORITY →
      ((schedRun (sched_init tm idleTid) ops).rq.bitmap p = true ↔
        (schedRun (sched_init tm idleTid) ops).rq.queue p ≠ [])) ∧
    (schedRun (sched_init tm idleTid) ops).rq.nr_running =
      sumQueueLens (schedRun (sched_init tm idleTid) ops).rq := by
  have hB0 : BitmapInv (sched_init tm idleTid) := by
    constructor
    · intro p hp
      simp [sched_init]
    · simp [sched_init, sumQueueLens]
  have hW0 : SchedWF (sched_init tm idleTid) := by
    constructor
    · intro n
      by_cases h : n = idleTid
      · subst h
        simp [sched_init, Function.update_same, idleThread, MAX_PRIORITY]
      · simp only [sched_init, Function.update_noteq h]
        exact hprio n
    · intro n hn
      by_cases h : n = idleTid
      · subst h
        simp [sched_init, Function.update_same, idleThread] at hn
      · simp only [sched_init, Function.update_noteq h] at hn
        rw [hlinked n] at hn
        simp at hn
  exact (schedRun_preserves ops (sched_init tm idleTid) hB0 hW0).1

/-- Witness for C5: two threads at priorities 100 and 120 added, one
schedule round and a removal; the invariant holds at the resulting
state. -/
theorem C5_runqueue_bitmap_invariant_witness :
    (∀ p, p < MAX_PRIORITY →
      ((schedRun
          (sched_init
            (fun n => { priority := if n = 1 then 100 else 120,
                        state := TaskState.interruptible,
                        time_slice := 0, onRq := false }) 0)
          [SchedOp.add 1, SchedOp.add 2, SchedOp.sched,
           SchedOp.remove 2]).rq.bitmap p = true ↔
        (schedRun
          (sched_init
            (fun n => { priority := if n = 1 then 100 else 120,
                        state := TaskState.interruptible,
                        time_slice := 0, onRq := false }) 0)
          [SchedOp.add 1, SchedOp.add 2, SchedOp.sched,
           SchedOp.remove 2]).rq.queue p ≠ [])) ∧
    (schedRun
      (sched_init
        (fun n => { priority := if n = 1 then 100 else 120,
                    state := TaskState.interruptible,
                    time_slice := 0, onRq := false }) 0)
      [SchedOp.add 1, SchedOp.add 2, SchedOp.sched,
       SchedOp.remove 2]).rq.nr_running =
      sumQueueLens
        (schedRun
          (sched_init
            (fun n => { priority := if n = 1 then 100 else 120,
                        state := TaskState.interruptible,
                        time_slice := 0, onRq := false }) 0)
          [SchedOp.add 1, SchedOp.add 2, SchedOp.sched,
           SchedOp.remove 2]).rq :=
  C5_runqueue_bitmap_invariant
    (fun n => { priority := if n = 1 then 100 else 120,
                state := TaskState.interruptible,
                time_slice := 0, onRq := false }) 0
    (fun n => by by_cases h : n = 1 <;> simp [h, MAX_PRIORITY])
    (fun n => rfl)
    [SchedOp.add 1, SchedOp.add 2, SchedOp.sched, SchedOp.remove 2]

end Sched

namespace Buddy

/-- MAX_ORDER from pmm.h: orders 0..10. -/
def MAX_ORDER : Nat := 11

/-- The buddy-relevant fields of struct page: the PG_BUDDY flag bit and
the order field. -/
structure PageMeta where
  buddy : Bool
  order : Nat
deriving DecidableEq, Repr

/-- A free area (pmm.h): the free list of block-head PFNs (list_add
prepends, so the head is the most recently freed block) and its nr_free
counter. -/
structure FreeArea where
  free_list : List Nat
  nr_free : Nat
deriving DecidableEq, Repr

/-- A zone (pmm.h): PFN bounds, the MAX_ORDER free areas, the statistics
counters, and the page-frame metadata array (indexed by PFN; page_to_pfn
and pfn_to_page are the identity in this model). -/
structure Zone where
  start_pfn : Nat
  end_pfn : Nat
  free_area : List FreeArea
  free_pages : Nat
  alloc_count : Nat
  free_count : Nat
  pages : Nat → PageMeta

/-- buddy_pfn from buddy.c: flip bit `order` of the PFN. -/
def buddy_pfn (pfn order : Nat) : Nat := pfn ^^^ (1 <<< order)

/-- combined_pfn from buddy.c: clear bit `order` (the C `pfn & ~(1UL <<
order)` on a 64-bit pfn). -/
def combined_pfn (pfn order : Nat) : Nat :=
  pfn &&& ((2 ^ 64 - 1) ^^^ (1 <<< order))

/-- Area at a given order (C indexes the fixed-size array directly). -/
def areaAt (z : Zone) (order : Nat) : FreeArea :=
  z.free_area.getD order { free_list := [], nr_free := 0 }

/-- page_is_buddy from buddy.c: in zone bounds, PG_BUDDY set, same
order. -/
def page_is_buddy (z : Zone) (bpfn order : Nat) : Bool :=
  if bpfn < z.start_pfn ∨ bpfn ≥ z.end_pfn then false
  else if ! (z.pages bpfn).buddy then false
  else if (z.pages bpfn).order ≠ order then false
  else true

/-- add_to_free_area from buddy.c: prepend the block head to the free
list, bump nr_free, record the order and set PG_BUDDY on its page. -/
def add_to_free_area (z : Zone) (pfn order : Nat) : Zone :=
  { z with
    free_area := z.free_area.set order
      { free_list := pfn :: (areaAt z order).free_list,
        nr_free := (areaAt z order).nr_free + 1 },
    pages := fun p => if p = pfn then { buddy := true, order := order }
                      else z.pages p }

/-- remove_from_free_area from buddy.c: unlink the block head, decrement
nr_free and clear PG_BUDDY (the order field is left as is). -/
def remove_from_free_area (z : Zone) (pfn order : Nat) : Zone :=
  { z with
    free_area := z.free_area.set order
      { free_list := (areaAt z order).free_list.erase pfn,
        nr_free := (areaAt z order).nr_free - 1 },
    pages := fun p => if p = pfn then { z.pages p with buddy := false }
                      else z.pages p }

/-- expand from buddy.c: split a block of order `high` down to `low`,
pushing each upper-half buddy onto the next-lower free area; each split
also increments the zone's free_pages counter by the buddy size. -/
def expand : Zone → Nat → Nat → Nat → Zone
  | z, _, _, 0 => z
  | z, page, low, high + 1 =>
    if low < high + 1 then
      let z1 := add_to_free_area z (page + 2 ^ high) high
      let z2 := { z1 with free_pages := z1.free_pages + 2 ^ high }
      expand z2 page low high
    else z

/-- The search loop of buddy_alloc_pages: first nonempty free area at or
above the requested order, returning its head block and the order it was
found at. -/
def alloc_find_from (z : Zone) : Nat → Nat → Option (Nat × Nat)
  | _, 0 => none
  | co, fuel + 1 =>
    if co < MAX_ORDER then
      match (areaAt z co).free_list with
      | [] => alloc_find_from z (co + 1) fuel
      | p :: _ => some (p, co)
    else none

def alloc_find (z : Zone) (co : Nat) : Option (Nat × Nat) :=
  alloc_find_from z co (MAX_ORDER - co)

/-- buddy_alloc_pages from buddy.c: reject order ≥ MAX_ORDER; find the
first nonempty area at or above the order, unlink its head, expand if it
was larger, then subtract 2^order from free_pages and count the
allocation.  Returns none with the zone untouched on exhaustion. -/
def buddy_alloc_pages (z : Zone) (order : Nat) : Option (Nat × Zone) :=
  if order ≥ MAX_ORDER then none
  else
    match alloc_find z order with
    | none => none
    | some (page, current_order) =>
      let z1 := remove_from_free_area z page current_order
      let z2 := if current_order > order then expand z1 page order current_order
                else z1
      some (page,
        { z2 with free_pages := z2.free_pages - 2 ^ order,
                  alloc_count := z2.alloc_count + 1 })

/-- The coalescing loop of buddy_free_pages: while below MAX_ORDER - 1
and the buddy block is free at the same order, unlink the buddy and move
up to the combined block. -/
def free_loop_steps : Zone → Nat → Nat → Nat → Zone × Nat × Nat
  | z, pfn, order, 0 => (z, pfn, order)
  | z, pfn, order, fuel + 1 =>
    if order < MAX_ORDER - 1 then
      if page_is_buddy z (buddy_pfn pfn order) order then
        free_loop_steps (remove_from_free_area z (buddy_pfn pfn order) order)
          (combined_pfn pfn order) (order + 1) fuel
      else (z, pfn, order)
    else (z, pfn, order)

def free_loop (z : Zone) (pfn order : Nat) : Zone × Nat × Nat :=
  free_loop_steps z pfn order (MAX_ORDER - 1 - order)

/-- buddy_free_pages from buddy.c: reject order ≥ MAX_ORDER (print and
return); coalesce upward, insert the final block and add its size to
free_pages, counting the free. -/
def buddy_free_pages (z : Zone) (page order : Nat) : Zone :=
  if order ≥ MAX_ORDER then z
  else
    let r := free_loop z page order
    let z1 := add_to_free_area r.1 r.2.1 r.2.2
    { z1 with free_pages := z1.free_pages + 2 ^ r.2.2,
              free_count := z1.free_count + 1 }

/-- A two-page zone holding a single free order-1 block at PFN 0, with
free_pages = 2 (as buddy_add_pages would leave it). -/
def splitZone : Zone :=
  { start_pfn := 0, end_pfn := 2,
    free_area :=
      [ { free_list := [], nr_free := 0 },
        { free_list := [0], nr_free := 1 },
        { free_list := [], nr_free := 0 },
        { free_list := [], nr_free := 0 },
        { free_list := [], nr_free := 0 },
        { free_list := [], nr_free := 0 },
        { free_list := [], nr_free := 0 },
        { free_list := [], nr_free := 0 },
        { free_list := [], nr_free := 0 },
        { free_list := [], nr_free := 0 },
        { free_list := [], nr_free := 0 } ],
    free_pages := 2, alloc_count := 0, free_count := 0,
    pages := fun p => if p = 0 then { buddy := true, order := 1 }
                      else { buddy := false, order := 0 } }

/-- The zone after buddy_alloc_pages(splitZone, 0): the allocation
succeeds returning PFN 0, and this is its updated zone. -/
def zoneAfterAlloc : Zone :=
  ((buddy_alloc_pages splitZone 0).getD (0, splitZone)).2

/-- C1, code evaluation at the failing input: allocating order 0 from
splitZone splits the order-1 block (expand pushes PFN 1 onto order 0 and
adds 2^0 to free_pages), and freeing PFN 0 re-coalesces.  The free lists
and per-order nr_free counts return exactly to the initial state, but
free_pages ends at 4 instead of 2: expand counts the split halves again
although they were already counted in the larger block, so the round
trip inflates free_pages by 2^(c+1) - 2^(k+1) whenever a split from
order c down to order k occurred.  After the allocation alone free_pages
is still 2 though only one page remains free. -/
theorem C1_buddy_roundtrip_free_pages_eval :
    (buddy_alloc_pages splitZone 0).map Prod.fst = some 0 ∧
    zoneAfterAlloc.free_pages = 2 ∧
    (areaAt zoneAfterAlloc 0).free_list = [1] ∧
    (buddy_free_pages zoneAfterAlloc 0 0).free_pages = 4 ∧
    (buddy_free_pages zoneAfterAlloc 0 0).free_area.map FreeArea.nr_free =
      splitZone.free_area.map FreeArea.nr_free ∧
    (buddy_free_pages zoneAfterAlloc 0 0).free_area.map FreeArea.free_list =
      splitZone.free_area.map FreeArea.free_list ∧
    splitZone.free_pages = 2 := by
  refine ⟨rfl, rfl, rfl, rfl, rfl, rfl, rfl⟩

end Buddy

namespace Fault

/-- Page-fault error-code bits from vmm.h. -/
def PF_PRESENT : Nat := 1
def PF_WRITE : Nat := 2
def PF_USER : Nat := 4

/-- PTE bits from vmm.h. -/
def PTE_WRITABLE : Nat := 2
def PTE_COW : Nat := 2 ^ 9
def PTE_ADDR_MASK : Nat := 0x000FFFFFFFFFF000

/-- All 64 bits set, for modelling bitwise complement on u64. -/
def U64_MASK : Nat := 2 ^ 64 - 1

/-- u64 subtraction a - b (wrapping), for operands below 2^64. -/
def u64sub (a b : Nat) : Nat := ((2 ^ 64 - b % 2 ^ 64) + a) % 2 ^ 64

/-- fault_addr & ~(PAGE_SIZE - 1). -/
def pageAlignDown (a : Nat) : Nat := a - a % PAGE_SIZE

/-- The machine state the fault handler touches: the frames
simple_get_free_page will hand out in order, the installed leaf PTEs per
page-aligned virtual address (an abstraction of the 4-level walk of
paging_map / paging_get_pte, whose intermediate-table allocations are
assumed to succeed), and whether each frame has been zero-filled.
Physical frames are identified with their frame numbers; the HHDM
virtual alias arithmetic of the C code cancels out and is folded
away. -/
structure Machine where
  freeFrames : List Nat
  pt : Nat → Option Nat
  zeroed : Nat → Bool

/-- get_free_page: pop the next free frame, or none on exhaustion. -/
def get_free_page (m : Machine) : Option (Nat × Machine) :=
  match m.freeFrames with
  | [] => none
  | f :: rest => some (f, { m with freeFrames := rest })

/-- memset(page, 0, PAGE_SIZE): mark the frame zero-filled. -/
def zeroFrame (m : Machine) (f : Nat) : Machine :=
  { m with zeroed := Function.update m.zeroed f true }

/-- paging_map: install the leaf PTE phys | prot for the page. -/
def paging_map (m : Machine) (virt phys prot : Nat) : Machine :=
  { m with pt := Function.update m.pt virt (some (phys ||| prot)) }

/-- An address_space as the fault handler sees it: the sorted VMA list
and the total_vm counter. -/
structure AddrSpace where
  vma_list : List VMArea
  total_vm : Nat

/-- The default VMArea used for out-of-range list indexing in this
model (never reached under the proved hypotheses). -/
def vma0 : VMArea := { start := 0, end_ := 0, flags := 0, page_prot := 0 }

/-- The page-allocation loop of handle_stack_growth, one iteration per
page of [new_start, vma.start): allocate, zero and map each page;
on allocator exhaustion return -1 with the pages mapped so far left in
place (as the C early return does). -/
def grow_loop : Machine → Nat → Nat → Nat → Int × Machine
  | m, _, _, 0 => (0, m)
  | m, prot, addr, n + 1 =>
    match get_free_page m with
    | none => (-1, m)
    | some (f, m1) =>
      grow_loop (paging_map (zeroFrame m1 f) addr f prot) prot
        (addr + PAGE_SIZE) n

/-- handle_stack_growth from fault.c, for the VMA at index i of the
list: if the faulting page lies within 256 pages below the VMA start,
allocate and map zeroed pages for the whole gap [page_addr, vma.start),
then lower the VMA start and bump total_vm. -/
def handle_stack_growth (m : Machine) (asp : AddrSpace) (i fault_addr : Nat) :
    Int × Machine × AddrSpace :=
  let vma := asp.vma_list.getD i vma0
  let page_addr := pageAlignDown fault_addr
  if u64sub vma.start (256 * PAGE_SIZE) ≤ page_addr ∧ page_addr < vma.start then
    let new_start := pageAlignDown page_addr
    let r := grow_loop m vma.page_prot new_start
      ((vma.start - new_start + PAGE_SIZE - 1) / PAGE_SIZE)
    if r.1 < 0 then (-1, r.2, asp)
    else
      (0, r.2,
        { vma_list := asp.vma_list.set i { vma with start := new_start },
          total_vm := asp.total_vm + (vma.start - new_start) / PAGE_SIZE })
  else (-1, m, asp)

/-- handle_demand_fault from fault.c: allocate a fresh zeroed frame and
map it at the faulting page with the VMA's protections. -/
def handle_demand_fault (m : Machine) (asp : AddrSpace) (vma : VMArea)
    (fault_addr : Nat) : Int × Machine × AddrSpace :=
  match get_free_page m with
  | none => (-1, m, asp)
  | some (f, m1) =>
    (0, paging_map (zeroFrame m1 f) (pageAlignDown fault_addr) f vma.page_prot,
     asp)

/-- handle_cow_fault from fault.c: allocate a frame, copy the old page
(contents are tracked only through the zero-filled flag), and install
the new frame with PTE_COW cleared and PTE_WRITABLE set. -/
def handle_cow_fault (m : Machine) (fault_addr pte : Nat) : Int × Machine :=
  match get_free_page m with
  | none => (-1, m)
  | some (f, m1) =>
    let m2 := { m1 with
      zeroed := Function.update m1.zeroed f (m1.zeroed (pte &&& PTE_ADDR_MASK)) }
    let newpte : Nat :=
      f ||| ((pte &&& (U64_MASK ^^^ (PTE_ADDR_MASK ||| PTE_COW))) ||| PTE_WRITABLE)
    (0, { m2 with pt := Function.update m2.pt (pageAlignDown fault_addr) (some newpte) })

/-- The stack-VMA scan in vmm_page_fault's no-VMA branch: does this VMA
carry VMA_STACK with the fault within 256 pages below its start? -/
def isStackCandidate (fault : Nat) (vma : VMArea) : Bool :=
  decide (vma.flags &&& VMA_STACK ≠ 0 ∧ fault < vma.start ∧
    u64sub vma.start (256 * PAGE_SIZE) ≤ fault)

/-- Index of the first stack VMA the list walk accepts (the C loop
breaks at the first match). -/
def find_stack_vma : List VMArea → Nat → Option Nat
  | [], _ => none
  | vma :: rest, fault =>
    if isStackCandidate fault vma then some 0
    else (find_stack_vma rest fault).map fun k => k + 1

/-- vmm_page_fault from fault.c: kernel faults at kernel addresses are
fatal; an address with no VMA may still grow a nearby stack VMA; writes
to read-only VMAs and protection faults on present pages go through COW;
non-present faults inside a VMA demand-allocate a zeroed page. -/
def vmm_page_fault (m : Machine) (asp : AddrSpace) (fault_addr error_code : Nat) :
    Int × Machine × AddrSpace :=
  if ¬ (error_code &&& PF_USER ≠ 0) ∧ KERNEL_SPACE_START ≤ fault_addr then
    (-1, m, asp)
  else
    match vmm_find_vma asp.vma_list fault_addr with
    | none =>
      match find_stack_vma asp.vma_list fault_addr with
      | some i =>
        let r := handle_stack_growth m asp i fault_addr
        if r.1 = 0 then (0, r.2.1, r.2.2) else (-1, r.2.1, r.2.2)
      | none => (-1, m, asp)
    | some vma =>
      if error_code &&& PF_WRITE ≠ 0 ∧ vma.flags &&& VMA_WRITE = 0 then
        match m.pt (pageAlignDown fault_addr) with
        | some pte =>
          if pte &&& PTE_COW ≠ 0 then
            let r := handle_cow_fault m fault_addr pte
            (r.1, r.2, asp)
          else (-1, m, asp)
        | none => (-1, m, asp)
      else if ¬ (error_code &&& PF_PRESENT ≠ 0) then
        handle_demand_fault m asp vma fault_addr
      else if error_code &&& PF_WRITE ≠ 0 then
        match m.pt (pageAlignDown fault_addr) with
        | some pte =>
          if pte &&& PTE_COW ≠ 0 then
            let r := handle_cow_fault m fault_addr pte
            (r.1, r.2, asp)
          else (-1, m, asp)
        | none => (-1, m, asp)
      else (-1, m, asp)

theorem PAGE_SIZE_eq : PAGE_SIZE = 4096 := rfl

theorem align_le (a : Nat) : pageAlignDown a ≤ a := by
  unfold pageAlignDown
  omega

theorem align_mod (a : Nat) : pageAlignDown a % PAGE_SIZE = 0 := by
  unfold pageAlignDown
  rw [PAGE_SIZE_eq]
  omega

theorem align_idem (a : Nat) : pageAlignDown (pageAlignDown a) = pageAlignDown a := by
  unfold pageAlignDown
  rw [PAGE_SIZE_eq]
  omega

theorem align_ge (a b : Nat) (hb : b % PAGE_SIZE = 0) (hba : b ≤ a) :
    b ≤ pageAlignDown a := by
  unfold pageAlignDown
  rw [PAGE_SIZE_eq] at hb ⊢
  omega

theorem u64sub_small (a b : Nat) (hb : b < 2 ^ 64) (hba : b ≤ a)
    (ha : a < 2 ^ 64) : u64sub a b = a - b := by
  unfold u64sub
  rw [Nat.mod_eq_of_lt hb]
  omega

theorem get_free_page_frames (m : Machine) (f : Nat) (m1 : Machine)
    (h : get_free_page m = some (f, m1)) :
    m.freeFrames = f :: m1.freeFrames ∧ m1.pt = m.pt ∧ m1.zeroed = m.zeroed := by
  unfold get_free_page at h
  cases hm : m.freeFrames with
  | nil => rw [hm] at h; exact Option.noConfusion h
  | cons x xs =>
    rw [hm] at h
    simp only [Option.some.injEq, Prod.mk.injEq] at h
    obtain ⟨hx, hm1⟩ := h
    subst hm1
    subst hx
    exact ⟨rfl, rfl, rfl⟩

theorem grow_loop_pt_before (n : Nat) : ∀ (m : Machine) (prot addr a : Nat),
    a < addr → (grow_loop m prot addr n).2.pt a = m.pt a := by
  induction n with
  | zero => intro m prot addr a h; rfl
  | succ k ih =>
    intro m prot addr a h
    simp only [grow_loop]
    cases hf : get_free_page m with
    | none => rfl
    | some fm =>
      obtain ⟨f, m1⟩ := fm
      obtain ⟨hfr, hpt, hz⟩ := get_free_page_frames m f m1 hf
      simp only
      rw [ih _ _ _ _ (show a < addr + PAGE_SIZE by rw [PAGE_SIZE_eq]; omega)]
      show Function.update (zeroFrame m1 f).pt addr (some (f ||| prot)) a = m.pt a
      rw [Function.update_noteq (show a ≠ addr by omega)]
      show m1.pt a = m.pt a
      rw [hpt]

theorem grow_loop_zeroed_mono (n : Nat) : ∀ (m : Machine) (prot addr f : Nat),
    m.zeroed f = true → (grow_loop m prot addr n).2.zeroed f = true := by
  induction n with
  | zero => intro m prot addr f h; exact h
  | succ k ih =>
    intro m prot addr f h
    simp only [grow_loop]
    cases hf : get_free_page m with
    | none => exact h
    | some fm =>
      obtain ⟨f0, m1⟩ := fm
      obtain ⟨hfr, hpt, hz⟩ := get_free_page_frames m f0 m1 hf
      simp only
      apply ih
      show Function.update m1.zeroed f0 true f = true
      by_cases hf0 : f = f0
      · subst hf0
        rw [Function.update_same]
      · rw [Function.update_noteq hf0, hz]
        exact h

theorem grow_loop_spec (n : Nat) : ∀ (m : Machine) (prot addr : Nat),
    n ≤ m.freeFrames.length →
    (grow_loop m prot addr n).1 = 0 ∧
    (∀ k, k < n → ∃ f,
      (grow_loop m prot addr n).2.pt (addr + k * PAGE_SIZE) =
        some (f ||| prot) ∧
      (grow_loop m prot addr n).2.zeroed f = true) := by
  induction n with
  | zero =>
    intro m prot addr hn
    exact ⟨rfl, by omega⟩
  | succ nk ih =>
    intro m prot addr hn
    simp only [grow_loop]
    cases hf : get_free_page m with
    | none =>
      exfalso
      unfold get_free_page at hf
      cases hm : m.freeFrames with
      | nil => rw [hm] at hn; simp at hn
      | cons x xs => rw [hm] at hf; simp at hf
    | some fm =>
      obtain ⟨f, m1⟩ := fm
      simp only
      obtain ⟨hfr, hpt, hz⟩ := get_free_page_frames m f m1 hf
      have hlen : nk ≤ (paging_map (zeroFrame m1 f) addr f prot).freeFrames.length := by
        show nk ≤ m1.freeFrames.length
        rw [hfr] at hn
        simp only [List.length_cons] at hn
        omega
      obtain ⟨hrc, hmaps⟩ := ih (paging_map (zeroFrame m1 f) addr f prot)
        prot (addr + PAGE_SIZE) hlen
      refine ⟨hrc, ?_⟩
      intro k hk
      cases k with
      | zero =>
        refine ⟨f, ?_, ?_⟩
        · have haddr : addr + 0 * PAGE_SIZE = addr := by ring
          rw [haddr, grow_loop_pt_before nk _ _ _ _
            (show addr < addr + PAGE_SIZE by rw [PAGE_SIZE_eq]; omega)]
          show Function.update (zeroFrame m1 f).pt addr (some (f ||| prot)) addr =
            some (f ||| prot)
          rw [Function.update_same]
        · apply grow_loop_zeroed_mono
          show Function.update m1.zeroed f true f = true
          rw [Function.update_same]
      | succ k2 =>
        obtain ⟨f2, h1, h2⟩ := hmaps k2 (by omega)
        refine ⟨f2, ?_, h2⟩
        have harith : addr + PAGE_SIZE + k2 * PAGE_SIZE =
            addr + (k2 + 1) * PAGE_SIZE := by ring
        rw [← harith]
        exact h1

theorem find_stack_vma_spec : ∀ (l : List VMArea) (fault i : Nat),
    find_stack_vma l fault = some i →
    i < l.length ∧ isStackCandidate fault (l.getD i vma0) = true := by
  intro l
  induction l with
  | nil => intro fault i h; exact Option.noConfusion h
  | cons vma rest ih =>
    intro fault i h
    unfold find_stack_vma at h
    by_cases hc : isStackCandidate fault vma
    · rw [if_pos hc] at h
      simp only [Option.some.injEq] at h
      rw [← h]
      exact ⟨by simp, hc⟩
    · rw [if_neg hc] at h
      cases hrest : find_stack_vma rest fault with
      | none => rw [hrest] at h; exact Option.noConfusion h
      | some j =>
        rw [hrest] at h
        have h2 : j + 1 = i := by simpa using h
        obtain ⟨hlen, hcand⟩ := ih fault j hrest
        subst h2
        refine ⟨by simp only [List.length_cons]; omega, ?_⟩
        simpa using hcand

theorem handle_stack_growth_success (m : Machine) (asp : AddrSpace)
    (i fault : Nat)
    (halign : (asp.vma_list.getD i vma0).start % PAGE_SIZE = 0)
    (hge : 256 * PAGE_SIZE ≤ (asp.vma_list.getD i vma0).start)
    (hlt64 : (asp.vma_list.getD i vma0).start < 2 ^ 64)
    (hwin1 : fault < (asp.vma_list.getD i vma0).start)
    (hwin2 : (asp.vma_list.getD i vma0).start - 256 * PAGE_SIZE ≤ fault)
    (hframes : 256 ≤ m.freeFrames.length) :
    (handle_stack_growth m asp i fault).1 = 0 ∧
    (handle_stack_growth m asp i fault).2.2.vma_list =
      asp.vma_list.set i
        { asp.vma_list.getD i vma0 with start := pageAlignDown fault } ∧
    (handle_stack_growth m asp i fault).2.2.total_vm =
      asp.total_vm +
        ((asp.vma_list.getD i vma0).start - pageAlignDown fault) / PAGE_SIZE ∧
    (∀ k, k < ((asp.vma_list.getD i vma0).start - pageAlignDown fault) /
        PAGE_SIZE →
      ∃ f, (handle_stack_growth m asp i fault).2.1.pt
          (pageAlignDown fault + k * PAGE_SIZE) =
          some (f ||| (asp.vma_list.getD i vma0).page_prot) ∧
        (handle_stack_growth m asp i fault).2.1.zeroed f = true) := by
  have hsub : u64sub (asp.vma_list.getD i vma0).start (256 * PAGE_SIZE) =
      (asp.vma_list.getD i vma0).start - 256 * PAGE_SIZE :=
    u64sub_small _ _ (by rw [PAGE_SIZE_eq]; norm_num) hge hlt64
  have hcond1 : u64sub (asp.vma_list.getD i vma0).start (256 * PAGE_SIZE) ≤
      pageAlignDown fault := by
    rw [hsub]
    apply align_ge
    · rw [PAGE_SIZE_eq] at halign ⊢
      omega
    · exact hwin2
  have hcond2 : pageAlignDown fault < (asp.vma_list.getD i vma0).start :=
    Nat.lt_of_le_of_lt (align_le fault) hwin1
  have hiter : ((asp.vma_list.getD i vma0).start -
      pageAlignDown fault + PAGE_SIZE - 1) / PAGE_SIZE =
      ((asp.vma_list.getD i vma0).start - pageAlignDown fault) / PAGE_SIZE := by
    have hmod := align_mod fault
    rw [PAGE_SIZE_eq] at halign hmod ⊢
    omega
  have hn256 : ((asp.vma_list.getD i vma0).start - pageAlignDown fault) /
      PAGE_SIZE ≤ 256 := by
    rw [hsub] at hcond1
    rw [PAGE_SIZE_eq] at hcond1 ⊢
    omega
  obtain ⟨hrc, hmaps⟩ := grow_loop_spec
    (((asp.vma_list.getD i vma0).start - pageAlignDown fault) / PAGE_SIZE)
    m (asp.vma_list.getD i vma0).page_prot (pageAlignDown fault)
    (by omega)
  unfold handle_stack_growth
  rw [if_pos ⟨hcond1, hcond2⟩]
  rw [align_idem]
  simp only []
  rw [hiter]
  rw [if_neg (by rw [hrc]; omega)]
  exact ⟨rfl, rfl, rfl, hmaps⟩

/-- C6: a fault at an address covered by no VMA but within 256 pages
below the start of a stack VMA (the first such VMA found, at index i)
succeeds: the fault handler extends that VMA downward to the page
boundary at or below the fault address, maps a freshly allocated zeroed
frame with the VMA's protections for every page of the newly covered
range, bumps total_vm, and returns 0.  Hypotheses: the fault is a user
fault or below kernel space, the VMA start is page-aligned, at least 256
pages above zero (so the u64 window arithmetic does not wrap) and below
2^64, and the free list holds enough frames. -/
theorem C6_stack_growth_fault (m : Machine) (asp : AddrSpace)
    (fault ec i : Nat)
    (huser : ec &&& PF_USER ≠ 0 ∨ fault < KERNEL_SPACE_START)
    (hnovma : vmm_find_vma asp.vma_list fault = none)
    (hfind : find_stack_vma asp.vma_list fault = some i)
    (halign : (asp.vma_list.getD i vma0).start % PAGE_SIZE = 0)
    (hge : 256 * PAGE_SIZE ≤ (asp.vma_list.getD i vma0).start)
    (hlt64 : (asp.vma_list.getD i vma0).start < 2 ^ 64)
    (hframes : 256 ≤ m.freeFrames.length) :
    (vmm_page_fault m asp fault ec).1 = 0 ∧
    (vmm_page_fault m asp fault ec).2.2.vma_list =
      asp.vma_list.set i
        { asp.vma_list.getD i vma0 with start := pageAlignDown fault } ∧
    pageAlignDown fault ≤ fault ∧
    pageAlignDown fault % PAGE_SIZE = 0 ∧
    (vmm_page_fault m asp fault ec).2.2.total_vm =
      asp.total_vm +
        ((asp.vma_list.getD i vma0).start - pageAlignDown fault) / PAGE_SIZE ∧
    (∀ k, k < ((asp.vma_list.getD i vma0).start - pageAlignDown fault) /
        PAGE_SIZE →
      ∃ f, (vmm_page_fault m asp fault ec).2.1.pt
          (pageAlignDown fault + k * PAGE_SIZE) =
          some (f ||| (asp.vma_list.getD i vma0).page_prot) ∧
        (vmm_page_fault m asp fault ec).2.1.zeroed f = true) := by
  obtain ⟨hilen, hcand⟩ := find_stack_vma_spec asp.vma_list fault i hfind
  rw [isStackCandidate, decide_eq_true_iff] at hcand
  obtain ⟨hflag, hwin1, hwin2⟩ := hcand
  have hsub : u64sub (asp.vma_list.getD i vma0).start (256 * PAGE_SIZE) =
      (asp.vma_list.getD i vma0).start - 256 * PAGE_SIZE :=
    u64sub_small _ _ (by rw [PAGE_SIZE_eq]; norm_num) hge hlt64
  rw [hsub] at hwin2
  obtain ⟨h0, h1, h2, h3⟩ := handle_stack_growth_success m asp i fault
    halign hge hlt64 hwin1 hwin2 hframes
  have hguard : ¬ (¬ (ec &&& PF_USER ≠ 0) ∧ KERNEL_SPACE_START ≤ fault) := by
    rcases huser with h | h
    · intro hc; exact hc.1 h
    · intro hc; omega
  unfold vmm_page_fault
  rw [if_neg hguard, hnovma, hfind]
  refine ⟨?_, ?_, align_le fault, align_mod fault, ?_, ?_⟩
  · simp only [h0, if_true]
  · simp only [h0, if_true]
    exact h1
  · simp only [h0, if_true]
    exact h2
  · simp only [h0, if_true]
    exact h3

/-- Witness for C6, the literal spec scenario 5: a stack VMA starting at
0x00007FFFFFF00000 and a read fault at 0x00007FFFFFEFE000 (two pages
below); the handler extends the VMA down to the fault page. -/
theorem C6_stack_growth_fault_witness :
    (vmm_page_fault
      { freeFrames := List.range 300, pt := fun _ => none,
        zeroed := fun _ => false }
      { vma_list := [{ start := 0x00007FFFFFF00000, end_ := 0x00007FFFFFF10000,
                       flags := VMA_READ ||| VMA_WRITE ||| VMA_STACK,
                       page_prot := 7 }],
        total_vm := 16 }
      0x00007FFFFFEFE000 PF_USER).1 = 0 ∧
    (vmm_page_fault
      { freeFrames := List.range 300, pt := fun _ => none,
        zeroed := fun _ => false }
      { vma_list := [{ start := 0x00007FFFFFF00000, end_ := 0x00007FFFFFF10000,
                       flags := VMA_READ ||| VMA_WRITE ||| VMA_STACK,
                       page_prot := 7 }],
        total_vm := 16 }
      0x00007FFFFFEFE000 PF_USER).2.2.vma_list =
      [{ start := 0x00007FFFFFF00000, end_ := 0x00007FFFFFF10000,
         flags := VMA_READ ||| VMA_WRITE ||| VMA_STACK,
         page_prot := 7 }].set 0
        { start := 0x00007FFFFFEFE000, end_ := 0x00007FFFFFF10000,
          flags := VMA_READ ||| VMA_WRITE ||| VMA_STACK, page_prot := 7 } := by
  have h := C6_stack_growth_fault
    { freeFrames := List.range 300, pt := fun _ => none,
      zeroed := fun _ => false }
    { vma_list := [{ start := 0x00007FFFFFF00000, end_ := 0x00007FFFFFF10000,
                     flags := VMA_READ ||| VMA_WRITE ||| VMA_STACK,
                     page_prot := 7 }],
      total_vm := 16 }
    0x00007FFFFFEFE000 PF_USER 0
    (Or.inl (by decide))
    (by decide)
    (by decide)
    (by decide)
    (by decide)
    (by decide)
    (by simp)
  refine ⟨h.1, ?_⟩
  have h2 := h.2.1
  rw [h2]
  rfl

end Fault

end Ocean
